import Mathlib

/-!
# tim: identity primitives and the streaming front-end

A shallow embedding of `util/util.go` (identity primitives) and
`timnet/server.go` (admission control and the streaming dispatcher).

Conventions of the embedding:

* a Go `[]byte` or `string` is a `List Nat` of byte values; a slice that may be
  `nil` is an `Option (List Nat)` with `none` for `nil`;
* a `uint64` is a `Nat` reduced modulo `2 ^ 64`; the conversions
  `int64(u)` / `uint64(i)` keep the bit pattern and are therefore not shown;
* a Go run-time panic (index out of range, integer division by zero) is the
  outer `none` of an `Option` result;
* functions of external libraries whose results are only passed around
  (`CRC64`, `CRC8`, the password hash) are fields of an environment record.
-/

namespace Tim

/-! ## Configuration and external checksums -/

/-- The configuration and library functions the identity primitives read:
`sys.Conf.Salt`, `sys.MaskSeed`, `goutil.CRC64` and `goutil.CRC8`. -/
structure Env where
  Salt : List Nat
  MaskSeed : List Nat
  CRC64 : List Nat → Nat
  CRC8 : List Nat → Nat

/-! ## Byte conversions (`goutil.Int64ToBytes`, `goutil.BytesToInt64`) -/

/-- The eight bytes of a 64-bit pattern, most significant byte first. -/
def Int64ToBytes (n : Nat) : List Nat :=
  [n / 2 ^ 56 % 256, n / 2 ^ 48 % 256, n / 2 ^ 40 % 256, n / 2 ^ 32 % 256,
   n / 2 ^ 24 % 256, n / 2 ^ 16 % 256, n / 2 ^ 8 % 256, n % 256]

/-- The 64-bit pattern whose big-endian bytes are the first eight bytes of `bs`. -/
def BytesToInt64 (bs : List Nat) : Nat :=
  (bs.take 8).foldl (fun r b => (r * 256 + b % 256) % 2 ^ 64) 0

/-! ## Masking (`util.Mask`, `util.MaskWithSeed`) -/

/-- The loop of `MaskWithSeed`: `_r[i] = bs[i] ^ seed[j]; j = i % len(seed)`.
The remaining input is the first argument, `i` and `j` are the loop variables. -/
def MaskWithSeedLoop (seed : List Nat) : List Nat → Nat → Nat → Option (List Nat)
  | [], _, _ => some []
  | b :: rest, i, j =>
    match seed[j]? with
    | none => none
    | some s =>
      if seed.length = 0 then none
      else (MaskWithSeedLoop seed rest (i + 1) (i % seed.length)).map (fun r => (b ^^^ s) :: r)

/-- The function `MaskWithSeed(bs, seed)` of `util.go`; a `nil` seed reads as an empty one. -/
def MaskWithSeed (bs : List Nat) (seed : Option (List Nat)) : Option (List Nat) :=
  MaskWithSeedLoop (seed.getD []) bs 0 0

/-- The loop of `Mask`: `_r[i] = bs[i] ^ sys.MaskSeed[j]; j = i % 8`. -/
def MaskLoop (MaskSeed : List Nat) : List Nat → Nat → Nat → Option (List Nat)
  | [], _, _ => some []
  | b :: rest, i, j =>
    match MaskSeed[j]? with
    | none => none
    | some s => (MaskLoop MaskSeed rest (i + 1) (i % 8)).map (fun r => (b ^^^ s) :: r)

/-- The function `Mask(bs)` of `util.go`: `nil` is returned for `nil`. -/
def Mask (MaskSeed : List Nat) : Option (List Nat) → Option (Option (List Nat))
  | none => some none
  | some bs => (MaskLoop MaskSeed bs 0 0).map some

/-! ## Identifiers (`util.CreateUUID`, `util.CheckUUID`) -/

/-- The bytes hashed by `CreateUUID`: `name ‖ salt ‖ domain`, the domain only
when it is neither `nil` nor empty. -/
def uuidBuffer (E : Env) (name : List Nat) (domain : Option (List Nat)) : List Nat :=
  match domain with
  | some d => if d ≠ [] then name ++ E.Salt ++ d else name ++ E.Salt
  | none => name ++ E.Salt

/-- The function `CreateUUID(name, domain)` of `util.go`. -/
def CreateUUID (E : Env) (name : List Nat) (domain : Option (List Nat)) : Option Nat :=
  let u := E.CRC64 (uuidBuffer E name domain) % 2 ^ 64
  let bs := Int64ToBytes u
  (Mask E.MaskSeed (some E.MaskSeed)).bind fun seed =>
  (MaskWithSeed bs seed).bind fun mbs =>
  let b8 := E.CRC8 (mbs.take 7) % 256
  some (BytesToInt64 (bs.set 7 b8))

/-- The function `CheckUUID(uuid)` of `util.go`. -/
def CheckUUID (E : Env) (uuid : Nat) : Option Bool :=
  let bs := Int64ToBytes uuid
  (Mask E.MaskSeed (some E.MaskSeed)).bind fun seed =>
  (MaskWithSeed bs seed).bind fun mbs =>
  let b8 := E.CRC8 (mbs.take 7) % 256
  some (decide (some b8 = bs[7]?))

/-! ## Composite keys (`util.ChatIdByNode`, `util.UnikIdByNode`) -/

/-- The function `ChatIdByNode(fromNode, toNode, domain)` of `util.go`: the two
identifiers are swapped when `f < t`, then written into a 16-byte array. -/
def ChatIdByNode (E : Env) (fromNode toNode : List Nat) (domain : Option (List Nat)) :
    Option (List Nat) :=
  (CreateUUID E fromNode domain).bind fun f =>
  (CreateUUID E toNode domain).bind fun t =>
  let ft : Nat × Nat := if f < t then (t, f) else (f, t)
  some (Int64ToBytes ft.1 ++ Int64ToBytes ft.2)

/-- The function `UnikIdByNode(fromNode, toNode, domain)` of `util.go`: no swap. -/
def UnikIdByNode (E : Env) (fromNode toNode : List Nat) (domain : Option (List Nat)) :
    Option (List Nat) :=
  (CreateUUID E fromNode domain).bind fun f =>
  (CreateUUID E toNode domain).bind fun t =>
  some (Int64ToBytes f ++ Int64ToBytes t)

/-! ## Passwords (`util.Password`, `util.passwordBytes`, `util.CheckPasswordHash`) -/

/-- The two functions of `golang.org/x/crypto/bcrypt` that `util.go` calls:
`GenerateFromPassword` (`none` for an error) and `CompareHashAndPassword`
(`true` for a `nil` error). -/
structure Bcrypt where
  GenerateFromPassword : List Nat → Option (List Nat)
  CompareHashAndPassword : List Nat → List Nat → Bool

/-- The password hash accepts exactly the byte string it was generated from. -/
def Bcrypt.Exact (B : Bcrypt) : Prop :=
  ∀ x h, B.GenerateFromPassword x = some h → ∀ y, B.CompareHashAndPassword h y = true ↔ y = x

/-- A hash that stores the password itself; it satisfies `Bcrypt.Exact`. -/
def plainBcrypt : Bcrypt :=
  { GenerateFromPassword := fun x => some x
    CompareHashAndPassword := fun h y => decide (y = h) }

/-- The function `passwordBytes(uuid, pwd, domain)` of `util.go`:
`Int64ToBytes(uuid) ‖ salt ‖ domain ‖ pwd`, the domain when the pointer is not `nil`. -/
def passwordBytes (E : Env) (uuid : Nat) (pwd : List Nat) (domain : Option (List Nat)) :
    List Nat :=
  match domain with
  | some d => Int64ToBytes uuid ++ E.Salt ++ d ++ pwd
  | none => Int64ToBytes uuid ++ E.Salt ++ pwd

/-- The function `Password(uuid, pwd, domain)` of `util.go`; `none` is the error return. -/
def Password (E : Env) (B : Bcrypt) (uuid : Nat) (pwd : List Nat) (domain : Option (List Nat)) :
    Option (List Nat) :=
  B.GenerateFromPassword (passwordBytes E uuid pwd domain)

/-- The function `CheckPasswordHash(uuid, pwd, domain, hash)` of `util.go`. -/
def CheckPasswordHash (E : Env) (B : Bcrypt) (uuid : Nat) (pwd : List Nat)
    (domain : Option (List Nat)) (hash : List Nat) : Bool :=
  B.CompareHashAndPassword hash (passwordBytes E uuid pwd domain)

/-! ## Admission control (`timnet.tasklimit`) -/

/-- One second as a `time.Duration`, in nanoseconds. -/
def Second : Nat := 1000000000

/-- What a call of `tasklimit` did: its return value (`none` for a run-time
panic), the sleeps it requested in order (nanoseconds), and how many times it
read `sys.Stat.Tx()`. -/
structure TaskRun where
  result : Option Bool
  sleeps : List Nat
  reads : Nat
deriving DecidableEq, Repr

/-- The loop of `tasklimit`, by recursion on `over`; `tx k` is the `k`-th value
read from `sys.Stat.Tx()`, `k` the number of reads so far, `sl` the sleeps so far.
`for over > 0 && Tx() > limit { over--; <-time.After(time.Second / time.Duration(over)) }`
followed by `return over > 0`. The division panics when `over` is zero. -/
def tasklimitLoop (limit : Int) (tx : Nat → Int) : Nat → Nat → List Nat → TaskRun
  | 0, k, sl => { result := some false, sleeps := sl, reads := k }
  | over + 1, k, sl =>
    if tx k > limit then
      if over = 0 then { result := none, sleeps := sl, reads := k + 1 }
      else tasklimitLoop limit tx over (k + 1) (sl ++ [Second / over])
    else { result := some (decide (0 < over + 1)), sleeps := sl, reads := k + 1 }

/-- The function `tasklimit()` of `server.go`, with `limit` for
`int64(*sys.Conf.TaskLimit)`: `over := 100`, then the loop. -/
def tasklimit (limit : Int) (tx : Nat → Int) : TaskRun :=
  tasklimitLoop limit tx 100 0 []

/-- The sum `Second / 1 + ... + Second / n` of integer quotients. -/
def sleepBudget : Nat → Nat
  | 0 => 0
  | n + 1 => sleepBudget n + Second / (n + 1)

/-! ## The admission model

The in-flight counter `sys.Stat.Tx()` counts the handlers between `TxDo` and
`TxDone`: the data-plane handlers `g` and the control-plane handlers `f`. -/

/-- The handlers in flight: `data` runs of `g`, `ctrl` runs of `f`. -/
structure Flight where
  data : Nat
  ctrl : Nat
deriving DecidableEq, Repr

/-- The value `sys.Stat.Tx()` returns in a state. -/
def Flight.Tx (s : Flight) : Int := (s.data : Int) + (s.ctrl : Int)

/-- One step of the admission model with task limit `L`. A data-plane handler
starts (`startG`) only after a call of `tasklimit` returned `true`, the last
counter value that call read being the current one, and its `TxDo` is counted
before any other step. -/
inductive Step (L : Int) : Flight → Flight → Prop
  | startG (s : Flight) (tx : Nat → Int) :
      (tasklimit L tx).result = some true →
      tx ((tasklimit L tx).reads - 1) = s.Tx →
      Step L s { s with data := s.data + 1 }
  | doneG (s : Flight) : 0 < s.data → Step L s { s with data := s.data - 1 }
  | startF (s : Flight) : Step L s { s with ctrl := s.ctrl + 1 }
  | doneF (s : Flight) : 0 < s.ctrl → Step L s { s with ctrl := s.ctrl - 1 }

/-- The states the admission model reaches from the idle state. -/
inductive Reachable (L : Int) : Flight → Prop
  | init : Reachable L { data := 0, ctrl := 0 }
  | step (s t : Flight) : Reachable L s → Step L s t → Reachable L t

/-! ## The streaming dispatcher (`timnet.wsHandler`, `g`, `f`, `e`, `c`)

A run of a handler is the list of the effects it has on its collaborators, in
program order. A goroutine started with `go` is run to its end right after the
statement that starts it. -/

/-- The values of the `sys.TIMTYPE` constants the dispatcher names; package
`sys` defines them. -/
structure TimTypes where
  TIMAUTH : Nat
  TIMACK : Nat
  TIMPING : Nat
  TIMMESSAGE : Nat
  TIMREVOKEMESSAGE : Nat
  TIMBURNMESSAGE : Nat
  TIMPRESENCE : Nat
  TIMSTREAM : Nat
  TIMOFFLINEMSG : Nat
  TIMPULLMESSAGE : Nat
  TIMBROADPRESENCE : Nat
  TIMBUSINESS : Nat
  TIMVROOM : Nat
  TIMNODES : Nat

/-- The backend handlers of package `sys` that `g` and `f` call. -/
inductive Backend
  | MessageHandle | PresenceHandle | StreamHandle | AuthHandle | AckHandle | PingHandle
  | OfflinemsgHandle | PullMessageHandle | BroadpresenceHandle | BusinessHandle
  | VRoomHandle | NodeInfoHandle
deriving DecidableEq, Repr

/-- A non-nil `sys.ERROR`: the three kinds the dispatcher itself names, or a
kind reported by a backend. -/
inductive TimError
  | ERR_PARAMS | ERR_OVERLOAD | ERR_OVERHZ | other (code : Nat)
deriving DecidableEq, Repr

/-- What a backend handler does when called: return `nil`, return an error, or panic. -/
inductive Reply
  | ok | fail (err : TimError) | panics
deriving DecidableEq, Repr

/-- The fields of a `TimAck` the dispatcher fills in. -/
structure TimAck where
  Ok : Bool
  TimType : Int
  Error : Option TimError
deriving DecidableEq, Repr

/-- The effects of the dispatcher on its collaborators. -/
inductive Event
  | close
  | ib (n : Nat)
  | hasWs
  | hertz
  | taskCheck
  | txDo
  | txDone
  | call (h : Backend)
  | connectAuth
  | expiredDel
  | sendWs (ack : TimAck)
  | wsSend (json : Bool) (ack : TimAck)
  | recovered
deriving DecidableEq, Repr

/-- What the surroundings answer during the handling of one frame. -/
structure World where
  maxData : Int
  hasWs : Bool
  overHertz : Bool
  taskLimit : Int
  tx : Nat → Int
  connectAuth : Bool
  reply : Backend → Reply

/-- The conversion `int8(t)` of a type tag. -/
def toInt8 (t : Nat) : Int :=
  if t % 256 < 128 then ((t % 256 : Nat) : Int) else ((t % 256 : Nat) : Int) - 256

/-- The function `JTP(b)` of `util.go`: `b&0x80 == 0x80`. -/
def JTP (b : Nat) : Bool := decide (b &&& 0x80 = 0x80)

/-- The negative ack `&TimAck{Ok: false, TimType: int8(t), Error: err.TimError()}`. -/
def nack (t : Nat) (err : TimError) : TimAck :=
  { Ok := false, TimType := toInt8 t, Error := some err }

/-- Modelled from the spec: `overMaxData(ws, length)` is declared in a file of
package `timnet` that is not among the sources. Per section 4.7 step 1 and
section 6, a frame longer than the configured cap is dropped and, on the
streaming path, the connection is closed. The result is the flag and the effects. -/
def overMaxData (W : World) (length : Nat) : Bool × List Event :=
  if (length : Int) > W.maxData then (true, [Event.close]) else (false, [])

/-- Modelled from the spec: `overHz(hc)` is declared in a file of package
`timnet` that is not among the sources. Per section 4.4 the rate limiter is
consulted and, when the connection is over its frequency cap, the over-hertz
ack with the frame type tag is emitted (the body of `c`) and the frame dropped. -/
def overHz (W : World) (t : Nat) : Bool × List Event :=
  if W.overHertz then (true, [Event.hertz, Event.sendWs (nack t TimError.ERR_OVERHZ)])
  else (false, [Event.hertz])

/-- The events after a backend call in `g` and `f`: the negative ack when the
handler returned an error, the swallowed panic when it panicked. The deferred
`TxDone` runs before the deferred `Recover`. -/
def afterCall (t : Nat) : Reply → List Event
  | Reply.ok => [Event.txDone]
  | Reply.fail err => [Event.sendWs (nack t err), Event.txDone]
  | Reply.panics => [Event.txDone, Event.recovered]

/-- The function `g(hc, bs, t)` of `server.go`. -/
def g (W : World) (T : TimTypes) (t : Nat) : List Event :=
  if t = T.TIMMESSAGE ∨ t = T.TIMREVOKEMESSAGE ∨ t = T.TIMBURNMESSAGE then
    [Event.txDo, Event.call Backend.MessageHandle] ++ afterCall t (W.reply Backend.MessageHandle)
  else if t = T.TIMPRESENCE then
    [Event.txDo, Event.call Backend.PresenceHandle] ++ afterCall t (W.reply Backend.PresenceHandle)
  else if t = T.TIMSTREAM then
    [Event.txDo, Event.call Backend.StreamHandle] ++ afterCall t (W.reply Backend.StreamHandle)
  else [Event.txDo, Event.txDone]

/-- The `case sys.TIMAUTH` of `f`, after `TxDo` and before the deferred calls. -/
def fAuth (W : World) (b0 t : Nat) : List Event :=
  if W.connectAuth = false then [Event.connectAuth, Event.close, Event.txDone]
  else
    match W.reply Backend.AuthHandle with
    | Reply.ok => [Event.connectAuth, Event.call Backend.AuthHandle, Event.expiredDel, Event.txDone]
    | Reply.fail err =>
      [Event.connectAuth, Event.call Backend.AuthHandle, Event.wsSend (JTP b0) (nack t err),
        Event.txDone]
    | Reply.panics =>
      [Event.connectAuth, Event.call Backend.AuthHandle, Event.txDone, Event.recovered]

/-- The function `f(hc, bs, t)` of `server.go`; `b0` is `bs[0]`. -/
def f (W : World) (T : TimTypes) (b0 t : Nat) : List Event :=
  if t = T.TIMAUTH then Event.txDo :: fAuth W b0 t
  else if t = T.TIMACK then
    [Event.txDo, Event.call Backend.AckHandle] ++ afterCall t (W.reply Backend.AckHandle)
  else if t = T.TIMPING then
    [Event.txDo, Event.call Backend.PingHandle] ++ afterCall t (W.reply Backend.PingHandle)
  else if t = T.TIMOFFLINEMSG then
    [Event.txDo, Event.call Backend.OfflinemsgHandle] ++
      afterCall t (W.reply Backend.OfflinemsgHandle)
  else if t = T.TIMPULLMESSAGE then
    [Event.txDo, Event.call Backend.PullMessageHandle] ++
      afterCall t (W.reply Backend.PullMessageHandle)
  else if t = T.TIMBROADPRESENCE then
    [Event.txDo, Event.call Backend.BroadpresenceHandle] ++
      afterCall t (W.reply Backend.BroadpresenceHandle)
  else if t = T.TIMBUSINESS then
    [Event.txDo, Event.call Backend.BusinessHandle] ++ afterCall t (W.reply Backend.BusinessHandle)
  else if t = T.TIMVROOM then
    [Event.txDo, Event.call Backend.VRoomHandle] ++ afterCall t (W.reply Backend.VRoomHandle)
  else if t = T.TIMNODES then
    [Event.txDo, Event.call Backend.NodeInfoHandle] ++ afterCall t (W.reply Backend.NodeInfoHandle)
  else [Event.txDo, Event.sendWs (nack t TimError.ERR_PARAMS), Event.txDone]

/-- The function `e(hc, bs, t)` of `server.go`: the overload ack. -/
def e (t : Nat) : List Event := [Event.sendWs (nack t TimError.ERR_OVERLOAD)]

/-- The function `c(hc, bs, t)` of `server.go`: the over-hertz ack. -/
def c (t : Nat) : List Event := [Event.sendWs (nack t TimError.ERR_OVERHZ)]

/-- The `switch t` of `wsHandler`: data-plane types pass through `tasklimit`,
all others go to `f`. A panic of `tasklimit` is swallowed by the deferred
`Recover` of `wsHandler`. -/
def dispatch (W : World) (T : TimTypes) (b0 t : Nat) : List Event :=
  if t = T.TIMMESSAGE ∨ t = T.TIMREVOKEMESSAGE ∨ t = T.TIMBURNMESSAGE ∨ t = T.TIMPRESENCE ∨
      t = T.TIMSTREAM then
    match (tasklimit W.taskLimit W.tx).result with
    | some true => Event.taskCheck :: g W T t
    | some false => Event.taskCheck :: e t
    | none => [Event.taskCheck, Event.recovered]
  else f W T b0 t

/-- The function `wsHandler(hc)` of `server.go` on the frame `frame` that
`hc.WS.Read()` returns. The copy `bs` is made with `make`, so `bs == nil` is
false; `bs[0]` is evaluated before that test and panics on an empty frame,
the panic being swallowed by the deferred `Recover`. `isAuth` is evaluated
only when the tag is neither `TIMAUTH` nor `TIMPING`. -/
def wsHandler (W : World) (T : TimTypes) (frame : List Nat) : List Event :=
  if (overMaxData W frame.length).1 then (overMaxData W frame.length).2
  else
    match frame with
    | [] => [Event.ib 0, Event.recovered]
    | b0 :: rest =>
      let t := b0 &&& 0x7f
      if t ≠ T.TIMAUTH ∧ t ≠ T.TIMPING then
        if W.hasWs = false then [Event.ib (rest.length + 1), Event.hasWs, Event.close]
        else if (overHz W t).1 then
          [Event.ib (rest.length + 1), Event.hasWs] ++ (overHz W t).2
        else [Event.ib (rest.length + 1), Event.hasWs] ++ (overHz W t).2 ++ dispatch W T b0 t
      else if (overHz W t).1 then Event.ib (rest.length + 1) :: (overHz W t).2
      else Event.ib (rest.length + 1) :: ((overHz W t).2 ++ dispatch W T b0 t)

/-- The `switch t` of `wsHandler` with the value returned by the call of
`tasklimit()` as an argument (`none` for its panic); `dispatch` is this
function at the outcome of `tasklimit`. -/
def dispatchOn (W : World) (T : TimTypes) (b0 t : Nat) (r : Option Bool) : List Event :=
  if t = T.TIMMESSAGE ∨ t = T.TIMREVOKEMESSAGE ∨ t = T.TIMBURNMESSAGE ∨ t = T.TIMPRESENCE ∨
      t = T.TIMSTREAM then
    match r with
    | some true => Event.taskCheck :: g W T t
    | some false => Event.taskCheck :: e t
    | none => [Event.taskCheck, Event.recovered]
  else f W T b0 t

/-- The tags of the `case` list of the `switch` in `wsHandler`. -/
def TimTypes.dataPlane (T : TimTypes) : List Nat :=
  [T.TIMMESSAGE, T.TIMREVOKEMESSAGE, T.TIMBURNMESSAGE, T.TIMPRESENCE, T.TIMSTREAM]

/-- The tags the `switch` statements of `wsHandler` and `f` name. -/
def TimTypes.streaming (T : TimTypes) : List Nat :=
  [T.TIMAUTH, T.TIMACK, T.TIMPING, T.TIMMESSAGE, T.TIMREVOKEMESSAGE, T.TIMBURNMESSAGE,
    T.TIMPRESENCE, T.TIMSTREAM, T.TIMOFFLINEMSG, T.TIMPULLMESSAGE, T.TIMBROADPRESENCE,
    T.TIMBUSINESS, T.TIMVROOM, T.TIMNODES]

/-- The change of the in-flight counter a run makes: `TxDo` adds one, `TxDone` takes one. -/
def txDelta : List Event → Int
  | [] => 0
  | Event.txDo :: rest => txDelta rest + 1
  | Event.txDone :: rest => txDelta rest - 1
  | _ :: rest => txDelta rest

/-- The backend handlers called in a run. -/
def calls : List Event → List Backend
  | [] => []
  | Event.call h :: rest => h :: calls rest
  | _ :: rest => calls rest

/-- The acks sent in a run, through `sys.SendWs` or `hc.WS.Send`. -/
def acks : List Event → List TimAck
  | [] => []
  | Event.sendWs a :: rest => a :: acks rest
  | Event.wsSend _ a :: rest => a :: acks rest
  | _ :: rest => acks rest

/-! ## Node strings (`util.NodeToUUID`, `util.CheckNode`, `util.CheckNodes`) -/

/-- What `CheckNode` reads besides `Env`: the constant `sys.NodeMaxSize` and the
value `base58.DecodeForInt64` returns for a node string. -/
structure NodeConf where
  NodeMaxSize : Int
  DecodeForInt64 : List Nat → Nat

/-- The function `NodeToUUID(node)` of `util.go`: the decoded value, the error dropped. -/
def NodeToUUID (N : NodeConf) (node : List Nat) : Nat :=
  N.DecodeForInt64 node % 2 ^ 64

/-- The function `CheckNode(node)` of `util.go`. -/
def CheckNode (E : Env) (N : NodeConf) (node : List Nat) : Option Bool :=
  if (node.length : Int) ≤ N.NodeMaxSize then
    if NodeToUUID N node > 0 then CheckUUID E (NodeToUUID N node) else some false
  else some false

/-- The `for ... range nodes` loop of `CheckNodes`: `false` at the first node
that fails `CheckNode`, `true` after the last. -/
def CheckNodesLoop (E : Env) (N : NodeConf) : List (List Nat) → Option Bool
  | [] => some true
  | node :: rest =>
    match CheckNode E N node with
    | none => none
    | some false => some false
    | some true => CheckNodesLoop E N rest

/-- The function `CheckNodes(nodes...)` of `util.go`. -/
def CheckNodes (E : Env) (N : NodeConf) (nodes : List (List Nat)) : Option Bool :=
  if nodes.length = 0 then some false else CheckNodesLoop E N nodes

/-! ## The pair key of two identifiers (`util.UnikId`) -/

/-- The function `UnikId(f, t)` of `util.go`: the two identifiers are swapped
when `f < t`, then written into a 16-byte array. -/
def UnikId (f t : Nat) : List Nat :=
  let ft : Nat × Nat := if f < t then (t, f) else (f, t)
  Int64ToBytes ft.1 ++ Int64ToBytes ft.2

/-! ## The reaper (`timnet.expiredTimer`)

The expiry map is the list of its entries `(connection, open timestamp)`, keys
distinct, in the order `BackForEach` visits them. -/

/-- The effects of a reaper tick: `k.Close()` and `expiredMap.Del(k)`. -/
inductive ReapEvent
  | close (k : Nat)
  | del (k : Nat)
deriving DecidableEq, Repr

/-- The function passed to `expiredMap.BackForEach` in `expiredTimer`, `now`
being the value of `time.Now().Unix()` it reads: the returned flag and the effects. -/
def reapEntry (now : Int) (k : Nat) (v : Int) : Bool × List ReapEvent :=
  if v + 3 < now then (true, [ReapEvent.close k, ReapEvent.del k]) else (false, [])

/-- One tick of `expiredTimer`: `reapEntry` on the entries `BackForEach` visits.
`BackForEach` belongs to an external library; `stops` says whether a `false`
returned by the function ends the iteration. `clock i` is the time the `i`-th
visit reads. -/
def reapTick (stops : Bool) (clock : Nat → Int) : List (Nat × Int) → Nat → List ReapEvent
  | [], _ => []
  | (k, v) :: rest, i =>
    if (reapEntry (clock i) k v).1 = false ∧ stops = true then (reapEntry (clock i) k v).2
    else (reapEntry (clock i) k v).2 ++ reapTick stops clock rest (i + 1)

/-- The expiry map after the deletions of a run. -/
def expiredAfter (m : List (Nat × Int)) (run : List ReapEvent) : List (Nat × Int) :=
  m.filter (fun en => decide (ReapEvent.del en.1 ∉ run))

/-- The call `expiredMap.Del(k)`, as made by `f` after a successful `AuthHandle`. -/
def expiredDel (k : Nat) (m : List (Nat × Int)) : List (Nat × Int) :=
  m.filter (fun en => decide (en.1 ≠ k))

/-- A run that calls `TxDo` first and `TxDone` last (only the swallowing of a
panic may follow), and neither in between. -/
def TxBalanced (run : List Event) : Prop :=
  ∃ body : List Event,
    (run = Event.txDo :: (body ++ [Event.txDone]) ∨
      run = Event.txDo :: (body ++ [Event.txDone, Event.recovered])) ∧
    Event.txDo ∉ body ∧ Event.txDone ∉ body

/-! ## Sample inputs -/

/-- A small environment for evaluating the definitions: toy checksums, a one-byte salt. -/
def demoEnv : Env :=
  { Salt := [115], MaskSeed := [1, 2, 3, 4, 5, 6, 7, 8],
    CRC64 := fun l => l.sum * 1000003 + 7, CRC8 := fun l => l.sum }

/-- Distinct sample values for the type tags. -/
def demoTypes : TimTypes :=
  { TIMAUTH := 3, TIMACK := 4, TIMPING := 5, TIMMESSAGE := 6, TIMREVOKEMESSAGE := 7,
    TIMBURNMESSAGE := 8, TIMPRESENCE := 9, TIMSTREAM := 10, TIMOFFLINEMSG := 11,
    TIMPULLMESSAGE := 12, TIMBROADPRESENCE := 13, TIMBUSINESS := 14, TIMVROOM := 15,
    TIMNODES := 16 }

/-- A sample surrounding: cap 1024, unauthenticated connection, idle counter. -/
def demoWorld : World :=
  { maxData := 1024, hasWs := false, overHertz := false, taskLimit := 1, tx := fun _ => 0,
    connectAuth := true, reply := fun _ => Reply.ok }

/-- A sample node configuration: at most 24 bytes, the byte sum as decoded value. -/
def demoNodes : NodeConf :=
  { NodeMaxSize := 24, DecodeForInt64 := fun l => l.sum }

/-- A sample connection on which `HasWs` is true. -/
def demoAuthWorld : World := { demoWorld with hasWs := true }

/-- A sample clock: every reading is second 100. -/
def demoClock : Nat → Int := fun _ => 100

/-- A sample expiry map: connections 1, 2, 3 opened at seconds 90, 97, 96. -/
def demoExpiry : List (Nat × Int) := [(1, 90), (2, 97), (3, 96)]

/-! # Theorems -/

/-! ## Bytes and masks -/

theorem Int64ToBytes_length (n : Nat) : (Int64ToBytes n).length = 8 := rfl

theorem Int64ToBytes_shape (n : Nat) :
    ∃ b0 b1 b2 b3 b4 b5 b6 b7 : Nat,
      Int64ToBytes n = [b0, b1, b2, b3, b4, b5, b6, b7] ∧
      b0 < 256 ∧ b1 < 256 ∧ b2 < 256 ∧ b3 < 256 ∧ b4 < 256 ∧ b5 < 256 ∧ b6 < 256 ∧ b7 < 256 :=
  ⟨_, _, _, _, _, _, _, _, rfl, Nat.mod_lt _ (by decide), Nat.mod_lt _ (by decide),
    Nat.mod_lt _ (by decide), Nat.mod_lt _ (by decide), Nat.mod_lt _ (by decide),
    Nat.mod_lt _ (by decide), Nat.mod_lt _ (by decide), Nat.mod_lt _ (by decide)⟩

/-- Eight bytes survive the trip through the 64-bit pattern. -/
theorem Int64ToBytes_BytesToInt64 (b0 b1 b2 b3 b4 b5 b6 b7 : Nat)
    (h0 : b0 < 256) (h1 : b1 < 256) (h2 : b2 < 256) (h3 : b3 < 256)
    (h4 : b4 < 256) (h5 : b5 < 256) (h6 : b6 < 256) (h7 : b7 < 256) :
    Int64ToBytes (BytesToInt64 [b0, b1, b2, b3, b4, b5, b6, b7]) =
      [b0, b1, b2, b3, b4, b5, b6, b7] := by
  simp only [BytesToInt64, Int64ToBytes, List.take, List.foldl]
  norm_num
  refine ⟨?_, ?_, ?_, ?_, ?_, ?_, ?_, ?_⟩ <;> omega

/-- A 64-bit pattern survives the trip through its eight bytes. -/
theorem BytesToInt64_Int64ToBytes (n : Nat) (h : n < 2 ^ 64) :
    BytesToInt64 (Int64ToBytes n) = n := by
  simp only [BytesToInt64, Int64ToBytes, List.take, List.foldl]
  norm_num at h ⊢
  omega

theorem Int64ToBytes_injective (m n : Nat) (hm : m < 2 ^ 64) (hn : n < 2 ^ 64)
    (h : Int64ToBytes m = Int64ToBytes n) : m = n := by
  rw [← BytesToInt64_Int64ToBytes m hm, ← BytesToInt64_Int64ToBytes n hn, h]

theorem foldl_bytes_lt (l : List Nat) :
    ∀ r : Nat, r < 2 ^ 64 →
      l.foldl (fun r b => (r * 256 + b % 256) % 2 ^ 64) r < 2 ^ 64 := by
  induction l with
  | nil => intro r hr; exact hr
  | cons b rest ih => intro r _; exact ih _ (Nat.mod_lt _ (by decide))

theorem BytesToInt64_lt (bs : List Nat) : BytesToInt64 bs < 2 ^ 64 :=
  foldl_bytes_lt _ 0 (by decide)

/-- With an 8-byte seed the loop of `Mask` never panics and undoes itself. -/
theorem MaskLoop_invol (seed : List Nat) (h : seed.length = 8) :
    ∀ (bs : List Nat) (i j : Nat), j < 8 →
      ∃ r, MaskLoop seed bs i j = some r ∧ MaskLoop seed r i j = some bs := by
  intro bs
  induction bs with
  | nil => intro i j _; exact ⟨[], rfl, rfl⟩
  | cons b rest ih =>
    intro i j hj
    obtain ⟨r, h1, h2⟩ := ih (i + 1) (i % 8) (Nat.mod_lt _ (by decide))
    have hs : seed[j]? = some (seed[j]) := List.getElem?_eq_getElem (by omega)
    refine ⟨(b ^^^ seed[j]) :: r, ?_, ?_⟩
    · simp [MaskLoop, hs, h1]
    · simp [MaskLoop, hs, h2, Nat.xor_assoc]

theorem MaskLoop_total (seed : List Nat) (h : seed.length = 8) :
    ∀ (bs : List Nat) (i j : Nat), j < 8 →
      ∃ r, MaskLoop seed bs i j = some r ∧ r.length = bs.length := by
  intro bs
  induction bs with
  | nil => intro i j _; exact ⟨[], rfl, rfl⟩
  | cons b rest ih =>
    intro i j hj
    obtain ⟨r, h1, h2⟩ := ih (i + 1) (i % 8) (Nat.mod_lt _ (by decide))
    have hs : seed[j]? = some (seed[j]) := List.getElem?_eq_getElem (by omega)
    exact ⟨(b ^^^ seed[j]) :: r, by simp [MaskLoop, hs, h1], by simp [h2]⟩

/-! ## Identifiers -/

/-- The value `CreateUUID` returns, in terms of the masked seed and the bytes of the CRC64. -/
theorem CreateUUID_eq (E : Env) (name : List Nat) (domain : Option (List Nat))
    (s0 s1 s2 s3 s4 s5 s6 s7 b0 b1 b2 b3 b4 b5 b6 b7 : Nat)
    (hsd : MaskLoop E.MaskSeed E.MaskSeed 0 0 = some [s0, s1, s2, s3, s4, s5, s6, s7])
    (hb : Int64ToBytes (E.CRC64 (uuidBuffer E name domain) % 2 ^ 64) =
      [b0, b1, b2, b3, b4, b5, b6, b7]) :
    CreateUUID E name domain = some (BytesToInt64 [b0, b1, b2, b3, b4, b5, b6,
      E.CRC8 [b0 ^^^ s0, b1 ^^^ s0, b2 ^^^ s1, b3 ^^^ s2, b4 ^^^ s3, b5 ^^^ s4, b6 ^^^ s5]
        % 256]) := by
  simp only [CreateUUID, Mask, hsd, Option.map_some', Option.some_bind, MaskWithSeed,
    Option.getD_some, hb]
  simp [MaskWithSeedLoop]

/-- With an 8-byte seed `CreateUUID` returns, and the value is a 64-bit pattern. -/
theorem CreateUUID_some (E : Env) (hseed : E.MaskSeed.length = 8) (name : List Nat)
    (domain : Option (List Nat)) :
    ∃ v, CreateUUID E name domain = some v ∧ v < 2 ^ 64 := by
  obtain ⟨sd, hsd, hlen⟩ := MaskLoop_total E.MaskSeed hseed E.MaskSeed 0 0 (by decide)
  rw [hseed] at hlen
  obtain ⟨b0, b1, b2, b3, b4, b5, b6, b7, hb, -⟩ :=
    Int64ToBytes_shape (E.CRC64 (uuidBuffer E name domain) % 2 ^ 64)
  match sd, hlen with
  | [s0, s1, s2, s3, s4, s5, s6, s7], _ =>
  exact ⟨_, CreateUUID_eq E name domain _ _ _ _ _ _ _ _ _ _ _ _ _ _ _ _ hsd hb,
    BytesToInt64_lt _⟩

/-- C1: for every name and every optional domain (nil, empty or non-empty),
with any salt, any checksum functions and any 8-byte mask seed, `CreateUUID`
returns an identifier and `CheckUUID` of that identifier returns true. -/
theorem CheckUUID_CreateUUID (E : Env) (name : List Nat) (domain : Option (List Nat))
    (hseed : E.MaskSeed.length = 8) :
    (CreateUUID E name domain).bind (CheckUUID E) = some true := by
  obtain ⟨sd, hsd, hlen⟩ := MaskLoop_total E.MaskSeed hseed E.MaskSeed 0 0 (by decide)
  rw [hseed] at hlen
  obtain ⟨b0, b1, b2, b3, b4, b5, b6, b7, hb, h0, h1, h2, h3, h4, h5, h6, -⟩ :=
    Int64ToBytes_shape (E.CRC64 (uuidBuffer E name domain) % 2 ^ 64)
  match sd, hlen with
  | [s0, s1, s2, s3, s4, s5, s6, s7], _ =>
  rw [CreateUUID_eq E name domain _ _ _ _ _ _ _ _ _ _ _ _ _ _ _ _ hsd hb, Option.some_bind]
  simp only [CheckUUID, Mask, hsd, Option.map_some', Option.some_bind, MaskWithSeed,
    Option.getD_some]
  rw [Int64ToBytes_BytesToInt64 _ _ _ _ _ _ _ _ h0 h1 h2 h3 h4 h5 h6 (Nat.mod_lt _ (by decide))]
  simp [MaskWithSeedLoop]

theorem CheckUUID_CreateUUID_witness :
    (CreateUUID demoEnv [97, 98] (some [100])).bind (CheckUUID demoEnv) = some true :=
  CheckUUID_CreateUUID demoEnv [97, 98] (some [100]) (by decide)

/-- C2: for every byte string `bs` of any length (also `nil`, also longer than
eight bytes) and every 8-byte mask seed, `Mask(Mask(bs))` returns `bs`. -/
theorem Mask_Mask (MaskSeed : List Nat) (bs : Option (List Nat))
    (hseed : MaskSeed.length = 8) :
    (Mask MaskSeed bs).bind (Mask MaskSeed) = some bs := by
  cases bs with
  | none => rfl
  | some l =>
    obtain ⟨r, h1, h2⟩ := MaskLoop_invol MaskSeed hseed l 0 0 (by decide)
    simp [Mask, h1, h2]

theorem Mask_Mask_witness :
    (Mask [1, 2, 3, 4, 5, 6, 7, 8] (some [10, 20, 30, 40, 50, 60, 70, 80, 90, 100])).bind
      (Mask [1, 2, 3, 4, 5, 6, 7, 8]) = some (some [10, 20, 30, 40, 50, 60, 70, 80, 90, 100]) :=
  Mask_Mask _ _ (by decide)

/-! ## Admission control -/

/-- When every reading exceeds the limit, the loop ends in the division by zero. -/
theorem tasklimitLoop_always_over (limit : Int) (tx : Nat → Int) (h : ∀ k, limit < tx k) :
    ∀ (over k : Nat) (sl : List Nat),
      (tasklimitLoop limit tx (over + 1) k sl).result = none ∧
      (tasklimitLoop limit tx (over + 1) k sl).reads = k + over + 1 ∧
      (tasklimitLoop limit tx (over + 1) k sl).sleeps.length = sl.length + over := by
  intro over
  induction over with
  | zero => intro k sl; simp [tasklimitLoop, h k]
  | succ n ih =>
    intro k sl
    have := ih (k + 1) (sl ++ [Second / (n + 1)])
    rw [tasklimitLoop]
    simp only [gt_iff_lt, h k, if_true, Nat.succ_ne_zero, if_false]
    simp only [List.length_append, List.length_singleton] at this
    refine ⟨this.1, ?_, ?_⟩ <;> omega

/-- Started with a positive retry count, the loop never returns false. -/
theorem tasklimitLoop_never_false (limit : Int) (tx : Nat → Int) :
    ∀ (over k : Nat) (sl : List Nat),
      (tasklimitLoop limit tx (over + 1) k sl).result ≠ some false := by
  intro over
  induction over with
  | zero => intro k sl; by_cases hk : tx k > limit <;> simp [tasklimitLoop, hk]
  | succ n ih =>
    intro k sl
    rw [tasklimitLoop]
    by_cases hk : tx k > limit
    · simp only [hk, if_true, Nat.succ_ne_zero, if_false]; exact ih _ _
    · simp [hk]

/-- The sleeps requested from retry count `over` on add up to at most
`Second / (over - 1) + ... + Second / 1`. -/
theorem tasklimitLoop_sleeps (limit : Int) (tx : Nat → Int) :
    ∀ (over k : Nat) (sl : List Nat),
      (tasklimitLoop limit tx over k sl).sleeps.sum ≤ sl.sum + sleepBudget (over - 1) := by
  intro over
  induction over with
  | zero => intro k sl; simp [tasklimitLoop]
  | succ n ih =>
    intro k sl
    rw [tasklimitLoop]
    by_cases hk : tx k > limit
    · by_cases hn : n = 0
      · simp [hk, hn]
      · simp only [hk, if_true, hn, if_false]
        have := ih (k + 1) (sl ++ [Second / n])
        obtain ⟨m, rfl⟩ := Nat.exists_eq_succ_of_ne_zero hn
        simp only [Nat.succ_eq_add_one, List.sum_append, List.sum_singleton,
          Nat.add_sub_cancel] at this
        simp only [Nat.succ_eq_add_one, Nat.add_sub_cancel, sleepBudget]
        omega
    · simp [hk]

theorem sleepBudget_99 : sleepBudget 99 = 5177377472 := by decide

/-- A call that returned true made a last reading, and that reading was at most the limit. -/
theorem tasklimitLoop_true_last_read (limit : Int) (tx : Nat → Int) :
    ∀ (over k : Nat) (sl : List Nat),
      (tasklimitLoop limit tx over k sl).result = some true →
        1 ≤ (tasklimitLoop limit tx over k sl).reads ∧
        tx ((tasklimitLoop limit tx over k sl).reads - 1) ≤ limit := by
  intro over
  induction over with
  | zero => intro k sl h; simp [tasklimitLoop] at h
  | succ n ih =>
    intro k sl
    rw [tasklimitLoop]
    by_cases hk : tx k > limit
    · by_cases hn : n = 0
      · simp [hk, hn]
      · simp only [hk, if_true, hn, if_false]; exact ih _ _
    · simp only [hk, if_false]
      intro _
      exact ⟨Nat.le_add_left 1 k, by simpa using hk⟩

/-- C3 (the code departs from the claim): when every reading of the in-flight
counter during a call of `tasklimit` exceeds the task limit, the call does not
return false: after 100 readings and 99 sleeps the retry count reaches zero and
`time.Second / time.Duration(over)` panics with a division by zero. No run of
`tasklimit` returns false at all. -/
theorem tasklimit_always_over_panics (limit : Int) (tx : Nat → Int)
    (h : ∀ k, limit < tx k) :
    (tasklimit limit tx).result = none ∧ (tasklimit limit tx).reads = 100 ∧
      (tasklimit limit tx).sleeps.length = 99 ∧
      ∀ (lim : Int) (rd : Nat → Int), (tasklimit lim rd).result ≠ some false := by
  have := tasklimitLoop_always_over limit tx h 99 0 []
  refine ⟨this.1, by simpa using this.2.1, by simpa using this.2.2, ?_⟩
  intro lim rd
  exact tasklimitLoop_never_false lim rd 99 0 []

theorem tasklimit_always_over_panics_witness :
    (tasklimit 1 (fun _ => 2)).result = none ∧ (tasklimit 1 (fun _ => 2)).reads = 100 ∧
      (tasklimit 1 (fun _ => 2)).sleeps.length = 99 ∧
      ∀ (lim : Int) (rd : Nat → Int), (tasklimit lim rd).result ≠ some false :=
  tasklimit_always_over_panics 1 (fun _ => 2) (fun _ => (by decide : (1 : Int) < 2))

/-- C6, as the claim states it, fails: with task limit 1 and every reading 2
the sleeps requested add up to 5177377472 ns, more than 1.1 s. -/
theorem tasklimit_sleeps_exceed_one_second :
    (tasklimit 1 (fun _ => 2)).sleeps.sum = 5177377472 ∧
      ¬ (tasklimit 1 (fun _ => 2)).sleeps.sum ≤ 1100000000 := by
  decide

/-- C6 (amended): for every call of `tasklimit`, whatever the readings of the
in-flight counter, the sleeps it requests, each the integer quotient of one
second by the remaining retry count, add up to at most
`Second / 99 + ... + Second / 1 = 5177377472` ns (about 5.18 s). -/
theorem tasklimit_sleeps_bound (limit : Int) (tx : Nat → Int) :
    (tasklimit limit tx).sleeps.sum ≤ 5177377472 := by
  have := tasklimitLoop_sleeps limit tx 100 0 []
  simpa [tasklimit, sleepBudget_99] using this

/-! ## The admission model -/

theorem Step_data_bound (L : Int) (s t : Flight) (h : Step L s t)
    (hs : (s.data : Int) ≤ max (L + 1) 0) : (t.data : Int) ≤ max (L + 1) 0 := by
  cases h with
  | startG tx hres hlast =>
    have hle := (tasklimitLoop_true_last_read L tx 100 0 [] hres).2
    have hlast2 : tx ((tasklimitLoop L tx 100 0 []).reads - 1) = s.Tx := hlast
    rw [hlast2] at hle
    simp only [Flight.Tx] at hle
    simp only [Nat.cast_add, Nat.cast_one]
    have : (0 : Int) ≤ (s.ctrl : Int) := Int.ofNat_nonneg _
    exact le_max_of_le_left (by omega)
  | doneG hpos =>
    simp only
    have : ((s.data - 1 : Nat) : Int) ≤ (s.data : Int) := by omega
    exact le_trans this hs
  | startF => exact hs
  | doneF _ => exact hs

/-- With task limit 1, two data-plane handlers get in flight: the first is
admitted at counter 0, the second at counter 1, which is not above the limit. -/
theorem reach_two_of_limit_one : Reachable 1 { data := 2, ctrl := 0 } := by
  have h1 : Reachable 1 { data := 1, ctrl := 0 } :=
    Reachable.step _ _ Reachable.init
      (Step.startG { data := 0, ctrl := 0 } (fun _ => 0) (by decide) (by decide))
  exact Reachable.step _ _ h1
    (Step.startG { data := 1, ctrl := 0 } (fun _ => 1) (by decide) (by decide))

/-- C10, as the claim states it, fails: with task limit `L = 1` the admission
model reaches a state with two data-plane handlers in flight. -/
theorem admission_exceeds_limit :
    Reachable 1 { data := 2, ctrl := 0 } ∧
      ¬ (((({ data := 2, ctrl := 0 } : Flight).data : Nat) : Int) ≤ 1) :=
  ⟨reach_two_of_limit_one, by decide⟩

/-- C10 (amended): in every reachable state of the admission model, in which a
data-plane handler starts only after `tasklimit` returned true and is counted
before the next step, the number of data-plane handlers in flight is at most
`L + 1` (and zero when `L + 1` is negative). -/
theorem Reachable_data_le (L : Int) (s : Flight) (h : Reachable L s) :
    (s.data : Int) ≤ max (L + 1) 0 := by
  induction h with
  | init => simp
  | step s t _ hst ih => exact Step_data_bound L s t hst ih

theorem Reachable_data_le_witness :
    Reachable 1 { data := 2, ctrl := 0 } ∧
      ((({ data := 2, ctrl := 0 } : Flight).data : Nat) : Int) ≤ max (1 + 1) 0 :=
  ⟨reach_two_of_limit_one, Reachable_data_le 1 { data := 2, ctrl := 0 } reach_two_of_limit_one⟩

/-! ## The streaming dispatcher -/

/-- C4 (the code departs from the claim): on an empty frame, with a size cap
that is not negative, `wsHandler` counts zero bytes, panics at `bs[0]` before
the `bs == nil` test, and the deferred `Recover` swallows the panic: no backend
handler is invoked, but the connection is not closed. -/
theorem wsHandler_empty_frame (W : World) (T : TimTypes) (hcap : 0 ≤ W.maxData) :
    wsHandler W T [] = [Event.ib 0, Event.recovered] ∧
      Event.close ∉ wsHandler W T [] ∧ ∀ h, Event.call h ∉ wsHandler W T [] := by
  have h : wsHandler W T [] = [Event.ib 0, Event.recovered] := by
    simp [wsHandler, overMaxData, not_lt.mpr hcap]
  rw [h]
  simp

theorem wsHandler_empty_frame_witness :
    wsHandler demoWorld demoTypes [] = [Event.ib 0, Event.recovered] ∧
      Event.close ∉ wsHandler demoWorld demoTypes [] ∧
      ∀ h, Event.call h ∉ wsHandler demoWorld demoTypes [] :=
  wsHandler_empty_frame demoWorld demoTypes (by decide)

/-- C5: for every non-empty frame within the size cap whose 7-bit type tag is
neither `TIMAUTH` nor `TIMPING`, on a connection for which `HasWs` is false,
`wsHandler` counts the bytes, asks `HasWs` and closes the connection; it sends
no ack, consults neither the rate limiter nor `tasklimit`, and invokes no
backend handler. -/
theorem wsHandler_unauthenticated (W : World) (T : TimTypes) (b0 : Nat) (rest : List Nat)
    (hcap : ((rest.length + 1 : Nat) : Int) ≤ W.maxData)
    (hAuth : b0 &&& 0x7f ≠ T.TIMAUTH) (hPing : b0 &&& 0x7f ≠ T.TIMPING)
    (hWs : W.hasWs = false) :
    wsHandler W T (b0 :: rest) = [Event.ib (rest.length + 1), Event.hasWs, Event.close] ∧
    Event.close ∈ wsHandler W T (b0 :: rest) ∧
    (∀ ack, Event.sendWs ack ∉ wsHandler W T (b0 :: rest)) ∧
    (∀ j ack, Event.wsSend j ack ∉ wsHandler W T (b0 :: rest)) ∧
    Event.hertz ∉ wsHandler W T (b0 :: rest) ∧
    Event.taskCheck ∉ wsHandler W T (b0 :: rest) ∧
    (∀ h, Event.call h ∉ wsHandler W T (b0 :: rest)) := by
  have h : wsHandler W T (b0 :: rest) =
      [Event.ib (rest.length + 1), Event.hasWs, Event.close] := by
    have hc : ¬ (((b0 :: rest).length : Nat) : Int) > W.maxData := by
      simpa using hcap
    simp only [wsHandler, overMaxData, hc, if_false]
    simp [hAuth, hPing, hWs]
  rw [h]
  simp

theorem wsHandler_unauthenticated_witness :
    wsHandler demoWorld demoTypes [6, 1, 2] = [Event.ib 3, Event.hasWs, Event.close] ∧
    Event.close ∈ wsHandler demoWorld demoTypes [6, 1, 2] ∧
    (∀ ack, Event.sendWs ack ∉ wsHandler demoWorld demoTypes [6, 1, 2]) ∧
    (∀ j ack, Event.wsSend j ack ∉ wsHandler demoWorld demoTypes [6, 1, 2]) ∧
    Event.hertz ∉ wsHandler demoWorld demoTypes [6, 1, 2] ∧
    Event.taskCheck ∉ wsHandler demoWorld demoTypes [6, 1, 2] ∧
    (∀ h, Event.call h ∉ wsHandler demoWorld demoTypes [6, 1, 2]) :=
  wsHandler_unauthenticated demoWorld demoTypes 6 [1, 2] (by decide) (by decide) (by decide) rfl

/-! ## Passwords -/

theorem passwordBytes_eq (E : Env) (uuid : Nat) (pwd : List Nat) (domain : Option (List Nat)) :
    passwordBytes E uuid pwd domain =
      Int64ToBytes uuid ++ (E.Salt ++ (domain.getD [] ++ pwd)) := by
  cases domain <;> simp [passwordBytes]

/-- Two password buffers agree exactly when the identifiers agree and the
domain followed by the password gives the same bytes. -/
theorem passwordBytes_eq_iff (E : Env) (u v : Nat) (p q : List Nat) (d k : Option (List Nat))
    (hu : u < 2 ^ 64) (hv : v < 2 ^ 64) :
    passwordBytes E v q k = passwordBytes E u p d ↔
      v = u ∧ k.getD [] ++ q = d.getD [] ++ p := by
  rw [passwordBytes_eq, passwordBytes_eq]
  constructor
  · intro h
    obtain ⟨h1, h2⟩ := List.append_inj h (by simp [Int64ToBytes_length])
    exact ⟨Int64ToBytes_injective v u hv hu h1, List.append_cancel_left h2⟩
  · rintro ⟨rfl, h⟩
    rw [h]

theorem plainBcrypt_exact : plainBcrypt.Exact := by
  intro x h hx y
  simp only [plainBcrypt, Option.some.injEq] at hx
  simp [plainBcrypt, hx]

/-- C7, as the claim states it, fails: the triple (1, "c", "ab") differs from
(1, "bc", "a") in password and domain, yet for every salt and every exact
password hash the hash generated for (1, "bc", "a") is accepted for
(1, "c", "ab"): both give the bytes `uuid ‖ salt ‖ "abc"`. -/
theorem CheckPasswordHash_accepts_shifted_domain :
    (1, [99], some [97, 98]) ≠ ((1 : Nat), [98, 99], some [97]) ∧
    plainBcrypt.Exact ∧
    Password demoEnv plainBcrypt 1 [98, 99] (some [97]) =
      some [0, 0, 0, 0, 0, 0, 0, 1, 115, 97, 98, 99] ∧
    ∀ (E : Env) (B : Bcrypt), B.Exact → ∀ h : List Nat,
      Password E B 1 [98, 99] (some [97]) = some h →
        CheckPasswordHash E B 1 [99] (some [97, 98]) h = true := by
  refine ⟨by decide, plainBcrypt_exact, by decide, ?_⟩
  intro E B hB h hP
  exact (hB _ _ hP _).2 (by simp [passwordBytes])

/-- C7 (amended): for every 64-bit uuid `u`, password `p` and domain `d` for
which `Password(u, p, d)` succeeds with hash `h` (the hash accepting exactly
the byte string it was generated from), `CheckPasswordHash(u, p, d, h)` is
true, and for every 64-bit `v`, `q`, `k` the call `CheckPasswordHash(v, q, k, h)`
is true exactly when `v = u` and the domain bytes followed by the password
bytes are the same (a `nil` domain contributing no bytes). -/
theorem CheckPasswordHash_iff (E : Env) (B : Bcrypt) (hB : B.Exact) (u : Nat) (p : List Nat)
    (d : Option (List Nat)) (h : List Nat) (hu : u < 2 ^ 64)
    (hP : Password E B u p d = some h) :
    CheckPasswordHash E B u p d h = true ∧
      ∀ (v : Nat) (q : List Nat) (k : Option (List Nat)), v < 2 ^ 64 →
        (CheckPasswordHash E B v q k h = true ↔ v = u ∧ k.getD [] ++ q = d.getD [] ++ p) := by
  have hex := hB _ _ hP
  refine ⟨(hex _).2 rfl, ?_⟩
  intro v q k hv
  rw [← passwordBytes_eq_iff E u v p q d k hu hv]
  exact hex _

theorem CheckPasswordHash_iff_witness :
    CheckPasswordHash demoEnv plainBcrypt 1 [98, 99] (some [97])
        [0, 0, 0, 0, 0, 0, 0, 1, 115, 97, 98, 99] = true ∧
      ∀ (v : Nat) (q : List Nat) (k : Option (List Nat)), v < 2 ^ 64 →
        (CheckPasswordHash demoEnv plainBcrypt v q k
            [0, 0, 0, 0, 0, 0, 0, 1, 115, 97, 98, 99] = true ↔
          v = 1 ∧ k.getD [] ++ q = (some [97]).getD [] ++ [98, 99]) :=
  CheckPasswordHash_iff demoEnv plainBcrypt plainBcrypt_exact 1 [98, 99] (some [97])
    [0, 0, 0, 0, 0, 0, 0, 1, 115, 97, 98, 99] (by decide) (by decide)

/-! ## Composite keys -/

/-- Identifiers are 64-bit patterns and names are unbounded, so two different
names share an identifier, whatever the checksum functions are. -/
theorem CreateUUID_collision (E : Env) (hseed : E.MaskSeed.length = 8)
    (domain : Option (List Nat)) :
    ∃ a b : List Nat, a ≠ b ∧ CreateUUID E a domain = CreateUUID E b domain := by
  classical
  let F : ℕ → Fin (2 ^ 64) := fun n =>
    ⟨(CreateUUID_some E hseed (List.replicate n 0) domain).choose,
      (CreateUUID_some E hseed (List.replicate n 0) domain).choose_spec.2⟩
  obtain ⟨m, n, hmn, hF⟩ := Finite.exists_ne_map_eq_of_infinite F
  refine ⟨List.replicate m 0, List.replicate n 0, ?_, ?_⟩
  · intro h
    apply hmn
    have := congrArg List.length h
    simpa using this
  · rw [(CreateUUID_some E hseed (List.replicate m 0) domain).choose_spec.1,
      (CreateUUID_some E hseed (List.replicate n 0) domain).choose_spec.1]
    exact congrArg some (congrArg Fin.val hF)

theorem UnikIdByNode_eq_of_uuid_eq (E : Env) (a b : List Nat) (d : Option (List Nat))
    (h : CreateUUID E a d = CreateUUID E b d) :
    UnikIdByNode E a b d = UnikIdByNode E b a d := by
  simp only [UnikIdByNode, h]

/-- C8, as the claim states it, fails: there is no choice of checksum
functions, salt and 8-byte seed for which every two different names get
different keys in the two directions. -/
theorem UnikIdByNode_not_always_directional :
    ¬ ∃ E : Env, E.MaskSeed.length = 8 ∧
      ∀ (a b : List Nat) (d : Option (List Nat)), a ≠ b →
        UnikIdByNode E a b d ≠ UnikIdByNode E b a d := by
  rintro ⟨E, hseed, h⟩
  obtain ⟨a, b, hab, hc⟩ := CreateUUID_collision E hseed none
  exact h a b none hab (UnikIdByNode_eq_of_uuid_eq E a b none hc)

/-- C8 (amended): for every pair of names `a`, `b` and every domain `d`,
`UnikIdByNode(a, b, d)` holds the identifier of `a` in bytes 0..7 and that of
`b` in bytes 8..15, without reordering, and it differs from
`UnikIdByNode(b, a, d)` exactly when `CreateUUID(a, d)` and `CreateUUID(b, d)`
differ. -/
theorem UnikIdByNode_ne_iff (E : Env) (a b : List Nat) (d : Option (List Nat))
    (hseed : E.MaskSeed.length = 8) :
    (∃ u v, CreateUUID E a d = some u ∧ CreateUUID E b d = some v ∧
      UnikIdByNode E a b d = some (Int64ToBytes u ++ Int64ToBytes v)) ∧
    (UnikIdByNode E a b d ≠ UnikIdByNode E b a d ↔ CreateUUID E a d ≠ CreateUUID E b d) := by
  obtain ⟨v, hv, hvlt⟩ := CreateUUID_some E hseed a d
  obtain ⟨w, hw, hwlt⟩ := CreateUUID_some E hseed b d
  refine ⟨⟨v, w, hv, hw, by simp only [UnikIdByNode, hv, hw, Option.some_bind]⟩, ?_⟩
  simp only [UnikIdByNode, hv, hw, Option.some_bind, ne_eq, Option.some.injEq]
  constructor
  · intro h hvw
    exact h (by rw [hvw])
  · intro h heq
    exact h (Int64ToBytes_injective v w hvlt hwlt
      (List.append_inj heq (by simp [Int64ToBytes_length])).1)

theorem UnikIdByNode_ne_iff_witness :
    (∃ u v, CreateUUID demoEnv [97] none = some u ∧ CreateUUID demoEnv [98] none = some v ∧
      UnikIdByNode demoEnv [97] [98] none = some (Int64ToBytes u ++ Int64ToBytes v)) ∧
    (UnikIdByNode demoEnv [97] [98] none ≠ UnikIdByNode demoEnv [98] [97] none ↔
      CreateUUID demoEnv [97] none ≠ CreateUUID demoEnv [98] none) :=
  UnikIdByNode_ne_iff demoEnv [97] [98] none (by decide)

/-- C9: for every pair of names `a`, `b` and every domain `d`, with an 8-byte
seed, `ChatIdByNode(a, b, d)` equals `ChatIdByNode(b, a, d)`: both are the 16
bytes made of the larger of the two identifiers, big-endian, in bytes 0..7 and
the smaller in bytes 8..15. -/
theorem ChatIdByNode_comm (E : Env) (a b : List Nat) (d : Option (List Nat))
    (hseed : E.MaskSeed.length = 8) :
    ChatIdByNode E a b d = ChatIdByNode E b a d ∧
    ∃ u v, CreateUUID E a d = some u ∧ CreateUUID E b d = some v ∧
      ChatIdByNode E a b d = some (Int64ToBytes (max u v) ++ Int64ToBytes (min u v)) ∧
      ChatIdByNode E b a d = some (Int64ToBytes (max u v) ++ Int64ToBytes (min u v)) ∧
      (Int64ToBytes (max u v) ++ Int64ToBytes (min u v)).length = 16 := by
  obtain ⟨v, hv, -⟩ := CreateUUID_some E hseed a d
  obtain ⟨w, hw, -⟩ := CreateUUID_some E hseed b d
  have key : ∀ x y : Nat,
      (if x < y then (y, x) else (x, y) : Nat × Nat) = (max x y, min x y) := by
    intro x y
    by_cases hxy : x < y
    · simp [hxy, max_eq_right hxy.le, min_eq_left hxy.le]
    · have hyx : y ≤ x := not_lt.mp hxy
      simp [hxy, max_eq_left hyx, min_eq_right hyx]
  have h1 : ChatIdByNode E a b d = some (Int64ToBytes (max v w) ++ Int64ToBytes (min v w)) := by
    simp only [ChatIdByNode, hv, hw, Option.some_bind, key]
  have h2 : ChatIdByNode E b a d = some (Int64ToBytes (max v w) ++ Int64ToBytes (min v w)) := by
    simp only [ChatIdByNode, hv, hw, Option.some_bind, key, max_comm w v, min_comm w v]
  exact ⟨h1.trans h2.symm, v, w, hv, hw, h1, h2, rfl⟩

theorem ChatIdByNode_comm_witness :
    ChatIdByNode demoEnv [97] [98] (some [100]) = ChatIdByNode demoEnv [98] [97] (some [100]) ∧
    ∃ u v, CreateUUID demoEnv [97] (some [100]) = some u ∧
      CreateUUID demoEnv [98] (some [100]) = some v ∧
      ChatIdByNode demoEnv [97] [98] (some [100]) =
        some (Int64ToBytes (max u v) ++ Int64ToBytes (min u v)) ∧
      ChatIdByNode demoEnv [98] [97] (some [100]) =
        some (Int64ToBytes (max u v) ++ Int64ToBytes (min u v)) ∧
      (Int64ToBytes (max u v) ++ Int64ToBytes (min u v)).length = 16 :=
  ChatIdByNode_comm demoEnv [97] [98] (some [100]) (by decide)


/-! ## The key stream of the masks -/

/-- The loop of `Mask` with a seed of at least eight bytes: it returns, and the
byte at position `k` is masked with the seed byte at the value `j` had when the
loop reached it: the initial `j` at position 0, `(i + k - 1) % 8` after. -/
theorem MaskLoop_getD (seed : List Nat) (h : 8 ≤ seed.length) :
    ∀ (bs : List Nat) (i j : Nat), j < 8 →
      ∃ r, MaskLoop seed bs i j = some r ∧ r.length = bs.length ∧
        ∀ k, k < bs.length →
          r.getD k 0 = bs.getD k 0 ^^^ seed.getD (if k = 0 then j else (i + k - 1) % 8) 0 := by
  intro bs
  induction bs with
  | nil => intro i j _; exact ⟨[], rfl, rfl, fun k hk => absurd hk (Nat.not_lt_zero k)⟩
  | cons b rest ih =>
    intro i j hj
    obtain ⟨r, h1, h2, h3⟩ := ih (i + 1) (i % 8) (Nat.mod_lt _ (by decide))
    have hs : seed[j]? = some (seed[j]) := List.getElem?_eq_getElem (by omega)
    refine ⟨(b ^^^ seed[j]) :: r, by simp [MaskLoop, hs, h1], by simp [h2], ?_⟩
    intro k hk
    cases k with
    | zero => simp [List.getD, hs]
    | succ n =>
      have hn : n < rest.length := by simpa using hk
      have := h3 n hn
      simp only [List.getD_cons_succ, Nat.succ_ne_zero, if_false]
      rw [this]
      by_cases h0 : n = 0
      · subst h0; simp
      · simp only [h0, if_false]
        have : i + 1 + n - 1 = i + (n + 1) - 1 := by omega
        rw [this]

/-- The loop of `MaskWithSeed` with a non-empty seed, likewise. -/
theorem MaskWithSeedLoop_getD (seed : List Nat) (h : 0 < seed.length) :
    ∀ (bs : List Nat) (i j : Nat), j < seed.length →
      ∃ r, MaskWithSeedLoop seed bs i j = some r ∧ r.length = bs.length ∧
        ∀ k, k < bs.length →
          r.getD k 0 =
            bs.getD k 0 ^^^ seed.getD (if k = 0 then j else (i + k - 1) % seed.length) 0 := by
  intro bs
  induction bs with
  | nil => intro i j _; exact ⟨[], rfl, rfl, fun k hk => absurd hk (Nat.not_lt_zero k)⟩
  | cons b rest ih =>
    intro i j hj
    obtain ⟨r, h1, h2, h3⟩ := ih (i + 1) (i % seed.length) (Nat.mod_lt _ h)
    have hs : seed[j]? = some (seed[j]) := List.getElem?_eq_getElem hj
    have hne : seed.length ≠ 0 := by omega
    refine ⟨(b ^^^ seed[j]) :: r, by simp [MaskWithSeedLoop, hs, h1, hne], by simp [h2], ?_⟩
    intro k hk
    cases k with
    | zero => simp [List.getD, hs]
    | succ n =>
      have hn : n < rest.length := by simpa using hk
      have := h3 n hn
      simp only [List.getD_cons_succ, Nat.succ_ne_zero, if_false]
      rw [this]
      by_cases h0 : n = 0
      · subst h0; simp
      · simp only [h0, if_false]
        have : i + 1 + n - 1 = i + (n + 1) - 1 := by omega
        rw [this]

/-- C11 (the code departs from the claim): `Mask` and `MaskWithSeed` update `j`
after using it, so the key stream lags by one position: byte 0 is masked with
seed byte 0 and byte `k > 0` with seed byte `(k - 1) mod 8` (`Mask`, 8-byte
seed) or `(k - 1) mod len(seed)` (`MaskWithSeed`, non-empty seed), not with seed
byte `k mod 8` or `k mod len(seed)`. -/
theorem Mask_key_stream_lags (MaskSeed seed bs : List Nat) (hseed : MaskSeed.length = 8)
    (hs : seed ≠ []) :
    (∃ r, Mask MaskSeed (some bs) = some (some r) ∧ r.length = bs.length ∧
      ∀ k, k < bs.length → r.getD k 0 = bs.getD k 0 ^^^ MaskSeed.getD ((k - 1) % 8) 0) ∧
    (∃ r, MaskWithSeed bs (some seed) = some r ∧ r.length = bs.length ∧
      ∀ k, k < bs.length →
        r.getD k 0 = bs.getD k 0 ^^^ seed.getD ((k - 1) % seed.length) 0) := by
  have hpos : 0 < seed.length := List.length_pos.mpr hs
  obtain ⟨r, h1, h2, h3⟩ := MaskLoop_getD MaskSeed (by omega) bs 0 0 (by decide)
  obtain ⟨q, g1, g2, g3⟩ := MaskWithSeedLoop_getD seed hpos bs 0 0 hpos
  refine ⟨⟨r, by simp [Mask, h1], h2, ?_⟩, ⟨q, by simpa [MaskWithSeed] using g1, g2, ?_⟩⟩
  · intro k hk
    rw [h3 k hk]
    by_cases h0 : k = 0
    · subst h0; simp
    · simp [h0]
  · intro k hk
    rw [g3 k hk]
    by_cases h0 : k = 0
    · subst h0; simp [Nat.zero_mod]
    · simp [h0]

theorem Mask_key_stream_lags_witness :
    (Mask [1, 2, 3, 4, 5, 6, 7, 8] (some [0, 0, 0]) = some (some [1, 1, 2]) ∧
      MaskWithSeed [0, 0, 0] (some [1, 2, 3]) = some [1, 1, 2] ∧
      [0 ^^^ 1, 0 ^^^ 2, 0 ^^^ 3] = [1, 2, 3]) ∧
    ((∃ r, Mask [1, 2, 3, 4, 5, 6, 7, 8] (some [0, 0, 0]) = some (some r) ∧
        r.length = [0, 0, 0].length ∧
        ∀ k, k < [0, 0, 0].length →
          r.getD k 0 = [0, 0, 0].getD k 0 ^^^ [1, 2, 3, 4, 5, 6, 7, 8].getD ((k - 1) % 8) 0) ∧
      (∃ r, MaskWithSeed [0, 0, 0] (some [1, 2, 3]) = some r ∧ r.length = [0, 0, 0].length ∧
        ∀ k, k < [0, 0, 0].length →
          r.getD k 0 = [0, 0, 0].getD k 0 ^^^ [1, 2, 3].getD ((k - 1) % [1, 2, 3].length) 0)) :=
  ⟨by decide, Mask_key_stream_lags [1, 2, 3, 4, 5, 6, 7, 8] [1, 2, 3] [0, 0, 0] (by decide)
    (by decide)⟩

/-- C16, as the claim states it, fails: with an empty (or `nil`) seed and a
one-byte input `MaskWithSeed` panics at `seed[0]`; with a one-byte `MaskSeed`
and a three-byte input `Mask` panics at `MaskSeed[1]`. -/
theorem MaskWithSeed_empty_seed_panics :
    MaskWithSeed [1] (some []) = none ∧ MaskWithSeed [1] none = none ∧
      Mask [5] (some [1, 2, 3]) = none := by
  decide

/-- C16 (amended): `MaskWithSeed(bs, seed)` returns a result of length `len(bs)`
for every byte string `bs` and every non-empty seed, and for the empty `bs`
with any seed; `Mask(bs)` returns a result of length `len(bs)` for every `bs`
when the configured `MaskSeed` has at least eight bytes, and `nil` for `nil`
with any `MaskSeed`. -/
theorem MaskWithSeed_Mask_total :
    (∀ bs seed : List Nat, seed ≠ [] →
      ∃ r, MaskWithSeed bs (some seed) = some r ∧ r.length = bs.length) ∧
    (∀ seed : Option (List Nat), MaskWithSeed [] seed = some []) ∧
    (∀ MaskSeed bs : List Nat, 8 ≤ MaskSeed.length →
      ∃ r, Mask MaskSeed (some bs) = some (some r) ∧ r.length = bs.length) ∧
    (∀ MaskSeed : List Nat, Mask MaskSeed none = some none) := by
  refine ⟨?_, fun _ => rfl, ?_, fun _ => rfl⟩
  · intro bs seed hs
    have hpos : 0 < seed.length := List.length_pos.mpr hs
    obtain ⟨q, g1, g2, -⟩ := MaskWithSeedLoop_getD seed hpos bs 0 0 hpos
    exact ⟨q, by simpa [MaskWithSeed] using g1, g2⟩
  · intro MaskSeed bs h
    obtain ⟨r, h1, h2, -⟩ := MaskLoop_getD MaskSeed h bs 0 0 (by decide)
    exact ⟨r, by simp [Mask, h1], h2⟩

/-! ## The in-flight counter in `g`, `f`, `e`, `c` -/

theorem txBalanced_afterCall (t : Nat) (h : Backend) (r : Reply) :
    TxBalanced ([Event.txDo, Event.call h] ++ afterCall t r) ∧
      txDelta ([Event.txDo, Event.call h] ++ afterCall t r) = 0 ∧
      List.count Event.txDo ([Event.txDo, Event.call h] ++ afterCall t r) = 1 ∧
      List.count Event.txDone ([Event.txDo, Event.call h] ++ afterCall t r) = 1 := by
  cases r with
  | ok => exact ⟨⟨[Event.call h], Or.inl rfl, by simp, by simp⟩, by simp [afterCall, txDelta],
      by simp [afterCall, List.count_cons], by simp [afterCall, List.count_cons]⟩
  | fail err =>
    exact ⟨⟨[Event.call h, Event.sendWs (nack t err)], Or.inl rfl, by simp, by simp⟩,
      by simp [afterCall, txDelta], by simp [afterCall, List.count_cons],
      by simp [afterCall, List.count_cons]⟩
  | panics => exact ⟨⟨[Event.call h], Or.inr rfl, by simp, by simp⟩,
      by simp [afterCall, txDelta], by simp [afterCall, List.count_cons],
      by simp [afterCall, List.count_cons]⟩

theorem txBalanced_fAuth (W : World) (b0 t : Nat) :
    TxBalanced (Event.txDo :: fAuth W b0 t) ∧ txDelta (Event.txDo :: fAuth W b0 t) = 0 ∧
      List.count Event.txDo (Event.txDo :: fAuth W b0 t) = 1 ∧
      List.count Event.txDone (Event.txDo :: fAuth W b0 t) = 1 := by
  unfold fAuth
  by_cases hc : W.connectAuth = false
  · simp only [hc, if_true]
    exact ⟨⟨[Event.connectAuth, Event.close], Or.inl rfl, by simp, by simp⟩, by simp [txDelta],
      by simp [List.count_cons], by simp [List.count_cons]⟩
  · simp only [hc, if_false]
    cases W.reply Backend.AuthHandle with
    | ok =>
      exact ⟨⟨[Event.connectAuth, Event.call Backend.AuthHandle, Event.expiredDel], Or.inl rfl,
        by simp, by simp⟩, by simp [txDelta], by simp [List.count_cons],
        by simp [List.count_cons]⟩
    | fail err =>
      exact ⟨⟨[Event.connectAuth, Event.call Backend.AuthHandle,
        Event.wsSend (JTP b0) (nack t err)], Or.inl rfl, by simp, by simp⟩, by simp [txDelta],
        by simp [List.count_cons], by simp [List.count_cons]⟩
    | panics =>
      exact ⟨⟨[Event.connectAuth, Event.call Backend.AuthHandle], Or.inr rfl, by simp, by simp⟩,
        by simp [txDelta], by simp [List.count_cons], by simp [List.count_cons]⟩

theorem txBalanced_bare :
    TxBalanced [Event.txDo, Event.txDone] ∧ txDelta [Event.txDo, Event.txDone] = 0 ∧
      List.count Event.txDo [Event.txDo, Event.txDone] = 1 ∧
      List.count Event.txDone [Event.txDo, Event.txDone] = 1 :=
  ⟨⟨[], Or.inl rfl, by simp, by simp⟩, by simp [txDelta], by simp [List.count_cons],
    by simp [List.count_cons]⟩

theorem txBalanced_g (W : World) (T : TimTypes) (t : Nat) :
    TxBalanced (g W T t) ∧ txDelta (g W T t) = 0 ∧
      List.count Event.txDo (g W T t) = 1 ∧ List.count Event.txDone (g W T t) = 1 := by
  unfold g
  split_ifs
  · exact txBalanced_afterCall _ _ _
  · exact txBalanced_afterCall _ _ _
  · exact txBalanced_afterCall _ _ _
  · exact txBalanced_bare

theorem txBalanced_f (W : World) (T : TimTypes) (b0 t : Nat) :
    TxBalanced (f W T b0 t) ∧ txDelta (f W T b0 t) = 0 ∧
      List.count Event.txDo (f W T b0 t) = 1 ∧ List.count Event.txDone (f W T b0 t) = 1 := by
  unfold f
  split_ifs
  · exact txBalanced_fAuth _ _ _
  · exact txBalanced_afterCall _ _ _
  · exact txBalanced_afterCall _ _ _
  · exact txBalanced_afterCall _ _ _
  · exact txBalanced_afterCall _ _ _
  · exact txBalanced_afterCall _ _ _
  · exact txBalanced_afterCall _ _ _
  · exact txBalanced_afterCall _ _ _
  · exact txBalanced_afterCall _ _ _
  · exact ⟨⟨[Event.sendWs (nack t TimError.ERR_PARAMS)], Or.inl rfl, by simp, by simp⟩,
      by simp [txDelta], by simp [List.count_cons], by simp [List.count_cons]⟩

/-- C19: every run of the dispatched handlers `g` and `f` calls `TxDo` first and
exactly once and `TxDone` exactly once, as the last effect of the handler (only
the swallowing of a panic follows it), on every path: the early returns of `f`
when `connectAuth` rejects the frame or `AuthHandle` fails, a backend handler
that returns an error, a backend handler that panics. The in-flight counter is
therefore back at its prior value, and the runs of `e` and `c` do not touch it. -/
theorem TxDo_TxDone_paired (W : World) (T : TimTypes) (b0 t : Nat) :
    (TxBalanced (g W T t) ∧ txDelta (g W T t) = 0 ∧
      List.count Event.txDo (g W T t) = 1 ∧ List.count Event.txDone (g W T t) = 1) ∧
    (TxBalanced (f W T b0 t) ∧ txDelta (f W T b0 t) = 0 ∧
      List.count Event.txDo (f W T b0 t) = 1 ∧ List.count Event.txDone (f W T b0 t) = 1) ∧
    (Event.txDo ∉ e t ∧ Event.txDone ∉ e t ∧ txDelta (e t) = 0) ∧
    (Event.txDo ∉ c t ∧ Event.txDone ∉ c t ∧ txDelta (c t) = 0) :=
  ⟨txBalanced_g W T t, txBalanced_f W T b0 t, by simp [e, txDelta], by simp [c, txDelta]⟩

/-! ## The dispatch table -/

theorem and_0x7f_le (b : Nat) : b &&& 0x7f ≤ 127 := Nat.and_le_right

/-- A 7-bit tag is its own `int8` value. -/
theorem toInt8_tag (b : Nat) : toInt8 (b &&& 0x7f) = ((b &&& 0x7f : Nat) : Int) := by
  have h := and_0x7f_le b
  have h1 : (b &&& 0x7f) % 256 = b &&& 0x7f := Nat.mod_eq_of_lt (by omega)
  have h2 : (b &&& 0x7f) < 128 := by omega
  simp only [toInt8, h1, h2, if_true]

theorem dispatch_eq_dispatchOn (W : World) (T : TimTypes) (b0 t : Nat) :
    dispatch W T b0 t = dispatchOn W T b0 t (tasklimit W.taskLimit W.tx).result := rfl

/-- C12: for an AUTH frame in handler `f`: when `connectAuth` rejects the frame
the connection is closed, no ack is sent and `AuthHandle` is not called; when
`AuthHandle` succeeds the entry of the connection is removed from the expiry
map and no ack is sent; when `AuthHandle` fails with an error exactly one
negative ack with the tag of AUTH and that error is sent on the connection,
encoded per the direction flag `JTP(bs[0])`, the connection is not closed and
the expiry-map entry stays. -/
theorem f_auth_frame (W : World) (T : TimTypes) (b0 : Nat) :
    (W.connectAuth = false →
      f W T b0 T.TIMAUTH =
        [Event.txDo, Event.connectAuth, Event.close, Event.txDone] ∧
      Event.close ∈ f W T b0 T.TIMAUTH ∧ acks (f W T b0 T.TIMAUTH) = [] ∧
      calls (f W T b0 T.TIMAUTH) = []) ∧
    (W.connectAuth = true → W.reply Backend.AuthHandle = Reply.ok →
      f W T b0 T.TIMAUTH =
        [Event.txDo, Event.connectAuth, Event.call Backend.AuthHandle, Event.expiredDel,
          Event.txDone] ∧
      Event.expiredDel ∈ f W T b0 T.TIMAUTH ∧ acks (f W T b0 T.TIMAUTH) = []) ∧
    (∀ err, W.connectAuth = true → W.reply Backend.AuthHandle = Reply.fail err →
      f W T b0 T.TIMAUTH =
        [Event.txDo, Event.connectAuth, Event.call Backend.AuthHandle,
          Event.wsSend (JTP b0) { Ok := false, TimType := toInt8 T.TIMAUTH, Error := some err },
          Event.txDone] ∧
      acks (f W T b0 T.TIMAUTH) =
        [{ Ok := false, TimType := toInt8 T.TIMAUTH, Error := some err }] ∧
      Event.close ∉ f W T b0 T.TIMAUTH ∧ Event.expiredDel ∉ f W T b0 T.TIMAUTH) := by
  refine ⟨?_, ?_, ?_⟩
  · intro hc
    have h : f W T b0 T.TIMAUTH =
        [Event.txDo, Event.connectAuth, Event.close, Event.txDone] := by
      simp [f, fAuth, hc]
    rw [h]
    simp [acks, calls]
  · intro hc hr
    have h : f W T b0 T.TIMAUTH =
        [Event.txDo, Event.connectAuth, Event.call Backend.AuthHandle, Event.expiredDel,
          Event.txDone] := by
      simp [f, fAuth, hc, hr]
    rw [h]
    simp [acks]
  · intro err hc hr
    have h : f W T b0 T.TIMAUTH =
        [Event.txDo, Event.connectAuth, Event.call Backend.AuthHandle,
          Event.wsSend (JTP b0) { Ok := false, TimType := toInt8 T.TIMAUTH, Error := some err },
          Event.txDone] := by
      simp [f, fAuth, hc, hr, nack]
    rw [h]
    simp [acks]

/-- The effects of `wsHandler` up to the authentication gate, for a frame that passes it. -/
theorem wsHandler_passed (W : World) (T : TimTypes) (b0 : Nat) (rest : List Nat)
    (hcap : ((rest.length + 1 : Nat) : Int) ≤ W.maxData)
    (hgate : b0 &&& 0x7f = T.TIMAUTH ∨ b0 &&& 0x7f = T.TIMPING ∨ W.hasWs = true) :
    wsHandler W T (b0 :: rest) =
      (if b0 &&& 0x7f ≠ T.TIMAUTH ∧ b0 &&& 0x7f ≠ T.TIMPING
        then [Event.ib (rest.length + 1), Event.hasWs] else [Event.ib (rest.length + 1)]) ++
      (if W.overHertz = true
        then [Event.hertz, Event.sendWs (nack (b0 &&& 0x7f) TimError.ERR_OVERHZ)]
        else Event.hertz :: dispatch W T b0 (b0 &&& 0x7f)) := by
  have hc : ¬ (((b0 :: rest).length : Nat) : Int) > W.maxData := by
    simpa using hcap
  simp only [wsHandler, overMaxData, hc, if_false]
  by_cases hA : b0 &&& 0x7f = T.TIMAUTH
  · by_cases hz : W.overHertz = true <;> simp [hA, overHz, hz]
  · by_cases hP : b0 &&& 0x7f = T.TIMPING
    · by_cases hz : W.overHertz = true <;> simp [hP, overHz, hz]
    · have hw : W.hasWs = true := by
        rcases hgate with h | h | h
        · exact absurd h hA
        · exact absurd h hP
        · exact h
      by_cases hz : W.overHertz = true <;> simp [hA, hP, hw, overHz, hz]

theorem wsHandler_over_cap (W : World) (T : TimTypes) (frame : List Nat)
    (hcap : W.maxData < ((frame.length : Nat) : Int)) :
    wsHandler W T frame = [Event.close] := by
  simp [wsHandler, overMaxData, hcap]

theorem wsHandler_gate_closed (W : World) (T : TimTypes) (b0 : Nat) (rest : List Nat)
    (hcap : ((rest.length + 1 : Nat) : Int) ≤ W.maxData)
    (hgate : ¬ (b0 &&& 0x7f = T.TIMAUTH ∨ b0 &&& 0x7f = T.TIMPING ∨ W.hasWs = true)) :
    wsHandler W T (b0 :: rest) = [Event.ib (rest.length + 1), Event.hasWs, Event.close] := by
  have hc : ¬ (((b0 :: rest).length : Nat) : Int) > W.maxData := by
    simpa using hcap
  simp only [not_or] at hgate
  obtain ⟨hA, hP, hW⟩ := hgate
  have hW2 : W.hasWs = false := by simpa using hW
  simp only [wsHandler, overMaxData, hc, if_false]
  simp [hA, hP, hW2]

/-- C13: for every non-empty frame `wsHandler` applies its checks in the order
size cap, authentication gate, rate limiter, admission control. A frame over
the cap only closes the connection. The rate limiter is consulted only for
frames within the cap that passed the gate (tag AUTH or PING, or `HasWs`).
When the rate limiter reports over-hertz the run ends with the over-hertz ack:
`tasklimit` is not called and no backend handler is invoked. `tasklimit` is
called only after the rate limiter answered that the frame is within rate;
then the run is the gate, the rate limiter, and the `switch`, in this order. -/
theorem wsHandler_check_order (W : World) (T : TimTypes) (b0 : Nat) (rest : List Nat) :
    (W.maxData < ((rest.length + 1 : Nat) : Int) →
      wsHandler W T (b0 :: rest) = [Event.close]) ∧
    (Event.hertz ∈ wsHandler W T (b0 :: rest) →
      ((rest.length + 1 : Nat) : Int) ≤ W.maxData ∧
      (b0 &&& 0x7f = T.TIMAUTH ∨ b0 &&& 0x7f = T.TIMPING ∨ W.hasWs = true)) ∧
    (((rest.length + 1 : Nat) : Int) ≤ W.maxData →
      (b0 &&& 0x7f = T.TIMAUTH ∨ b0 &&& 0x7f = T.TIMPING ∨ W.hasWs = true) →
      W.overHertz = true →
        wsHandler W T (b0 :: rest) =
          (if b0 &&& 0x7f ≠ T.TIMAUTH ∧ b0 &&& 0x7f ≠ T.TIMPING
            then [Event.ib (rest.length + 1), Event.hasWs] else [Event.ib (rest.length + 1)]) ++
          [Event.hertz, Event.sendWs (nack (b0 &&& 0x7f) TimError.ERR_OVERHZ)] ∧
        Event.taskCheck ∉ wsHandler W T (b0 :: rest) ∧
        calls (wsHandler W T (b0 :: rest)) = []) ∧
    (((rest.length + 1 : Nat) : Int) ≤ W.maxData →
      (b0 &&& 0x7f = T.TIMAUTH ∨ b0 &&& 0x7f = T.TIMPING ∨ W.hasWs = true) →
      W.overHertz = false →
        wsHandler W T (b0 :: rest) =
          (if b0 &&& 0x7f ≠ T.TIMAUTH ∧ b0 &&& 0x7f ≠ T.TIMPING
            then [Event.ib (rest.length + 1), Event.hasWs] else [Event.ib (rest.length + 1)]) ++
          Event.hertz :: dispatch W T b0 (b0 &&& 0x7f)) ∧
    (Event.taskCheck ∈ wsHandler W T (b0 :: rest) →
      Event.hertz ∈ wsHandler W T (b0 :: rest) ∧ W.overHertz = false) := by
  have hover : W.maxData < ((rest.length + 1 : Nat) : Int) →
      wsHandler W T (b0 :: rest) = [Event.close] := fun h =>
    wsHandler_over_cap W T (b0 :: rest) (by simpa using h)
  have hz1 : ((rest.length + 1 : Nat) : Int) ≤ W.maxData →
      (b0 &&& 0x7f = T.TIMAUTH ∨ b0 &&& 0x7f = T.TIMPING ∨ W.hasWs = true) →
      W.overHertz = true →
        wsHandler W T (b0 :: rest) =
          (if b0 &&& 0x7f ≠ T.TIMAUTH ∧ b0 &&& 0x7f ≠ T.TIMPING
            then [Event.ib (rest.length + 1), Event.hasWs] else [Event.ib (rest.length + 1)]) ++
          [Event.hertz, Event.sendWs (nack (b0 &&& 0x7f) TimError.ERR_OVERHZ)] := by
    intro hcap hgate hz
    rw [wsHandler_passed W T b0 rest hcap hgate]
    simp [hz]
  have hz0 : ((rest.length + 1 : Nat) : Int) ≤ W.maxData →
      (b0 &&& 0x7f = T.TIMAUTH ∨ b0 &&& 0x7f = T.TIMPING ∨ W.hasWs = true) →
      W.overHertz = false →
        wsHandler W T (b0 :: rest) =
          (if b0 &&& 0x7f ≠ T.TIMAUTH ∧ b0 &&& 0x7f ≠ T.TIMPING
            then [Event.ib (rest.length + 1), Event.hasWs] else [Event.ib (rest.length + 1)]) ++
          Event.hertz :: dispatch W T b0 (b0 &&& 0x7f) := by
    intro hcap hgate hz
    rw [wsHandler_passed W T b0 rest hcap hgate]
    simp [hz]
  refine ⟨hover, ?_, ?_, hz0, ?_⟩
  · intro hmem
    by_cases hcap : ((rest.length + 1 : Nat) : Int) ≤ W.maxData
    · refine ⟨hcap, ?_⟩
      by_contra hgate
      rw [wsHandler_gate_closed W T b0 rest hcap hgate] at hmem
      simp at hmem
    · rw [hover (not_le.mp hcap)] at hmem
      simp at hmem
  · intro hcap hgate hz
    refine ⟨hz1 hcap hgate hz, ?_, ?_⟩
    · rw [hz1 hcap hgate hz]
      split_ifs <;> simp
    · rw [hz1 hcap hgate hz]
      split_ifs <;> simp [calls]
  · intro hmem
    by_cases hcap : ((rest.length + 1 : Nat) : Int) ≤ W.maxData
    · by_cases hgate : b0 &&& 0x7f = T.TIMAUTH ∨ b0 &&& 0x7f = T.TIMPING ∨ W.hasWs = true
      · by_cases hz : W.overHertz = true
        · rw [hz1 hcap hgate hz] at hmem
          split_ifs at hmem <;> simp at hmem
        · have hz2 : W.overHertz = false := by simpa using hz
          refine ⟨?_, hz2⟩
          rw [hz0 hcap hgate hz2]
          simp
      · rw [wsHandler_gate_closed W T b0 rest hcap hgate] at hmem
        simp at hmem
    · rw [hover (not_le.mp hcap)] at hmem
      simp at hmem

theorem calls_acks_afterCall (t : Nat) (h : Backend) (r : Reply) :
    calls ([Event.txDo, Event.call h] ++ afterCall t r) = [h] ∧
      (∀ err, r = Reply.fail err →
        acks ([Event.txDo, Event.call h] ++ afterCall t r) = [nack t err]) ∧
      ((∀ err, r ≠ Reply.fail err) → acks ([Event.txDo, Event.call h] ++ afterCall t r) = []) := by
  cases r with
  | ok => simp [afterCall, calls, acks]
  | fail e1 => simp [afterCall, calls, acks]
  | panics => simp [afterCall, calls, acks]

/-- The handler `g` calls for each data-plane tag, the five tags being distinct. -/
theorem g_eq (W : World) (T : TimTypes) (t : Nat) (hT : T.dataPlane.Nodup)
    (ht : t ∈ T.dataPlane) :
    ∃ h, g W T t = [Event.txDo, Event.call h] ++ afterCall t (W.reply h) ∧
      (t = T.TIMMESSAGE ∨ t = T.TIMREVOKEMESSAGE ∨ t = T.TIMBURNMESSAGE →
        h = Backend.MessageHandle) ∧
      (t = T.TIMPRESENCE → h = Backend.PresenceHandle) ∧
      (t = T.TIMSTREAM → h = Backend.StreamHandle) := by
  simp only [TimTypes.dataPlane, List.nodup_cons, List.mem_cons, List.mem_singleton,
    List.not_mem_nil, not_or, or_false, not_false_eq_true, List.nodup_nil, and_true] at hT ht
  obtain ⟨⟨_, _, hMP, hMS⟩, ⟨_, hRP, hRS⟩, ⟨hBP, hBS⟩, hPS⟩ := hT
  by_cases h1 : t = T.TIMMESSAGE ∨ t = T.TIMREVOKEMESSAGE ∨ t = T.TIMBURNMESSAGE
  · refine ⟨Backend.MessageHandle, by unfold g; rw [if_pos h1], fun _ => rfl, ?_, ?_⟩
    · rintro rfl
      rcases h1 with h | h | h
      · exact absurd h.symm hMP
      · exact absurd h.symm hRP
      · exact absurd h.symm hBP
    · rintro rfl
      rcases h1 with h | h | h
      · exact absurd h.symm hMS
      · exact absurd h.symm hRS
      · exact absurd h.symm hBS
  · by_cases h2 : t = T.TIMPRESENCE
    · refine ⟨Backend.PresenceHandle, by unfold g; rw [if_neg h1, if_pos h2],
        fun h => absurd h h1, fun _ => rfl, ?_⟩
      intro h3
      exact absurd (h2.symm.trans h3) hPS
    · have h3 : t = T.TIMSTREAM := by
        rcases ht with h | h | h | h | h
        · exact absurd (Or.inl h) h1
        · exact absurd (Or.inr (Or.inl h)) h1
        · exact absurd (Or.inr (Or.inr h)) h1
        · exact absurd h h2
        · exact h
      exact ⟨Backend.StreamHandle, by unfold g; rw [if_neg h1, if_neg h2, if_pos h3],
        fun h => absurd h h1,
        fun h => absurd h h2, fun _ => rfl⟩

/-- C14: for a frame whose tag `t` is one of MESSAGE, REVOKEMESSAGE,
BURNMESSAGE, PRESENCE, STREAM (five distinct values), the `switch` of
`wsHandler` acts on the value `tasklimit` returned. On true it starts `g`, which
invokes exactly one backend handler (`MessageHandle` for the first three tags,
`PresenceHandle` for PRESENCE, `StreamHandle` for STREAM) and sends a negative
ack with the tag and the error exactly when that handler returns an error. On
false no backend handler is invoked and one negative ack with the tag and the
overload error is sent. -/
theorem dataPlane_dispatch (W : World) (T : TimTypes) (b0 : Nat) (hT : T.dataPlane.Nodup)
    (ht : b0 &&& 0x7f ∈ T.dataPlane) :
    dispatch W T b0 (b0 &&& 0x7f) =
      dispatchOn W T b0 (b0 &&& 0x7f) (tasklimit W.taskLimit W.tx).result ∧
    (∃ h, calls (dispatchOn W T b0 (b0 &&& 0x7f) (some true)) = [h] ∧
      (b0 &&& 0x7f = T.TIMMESSAGE ∨ b0 &&& 0x7f = T.TIMREVOKEMESSAGE ∨
        b0 &&& 0x7f = T.TIMBURNMESSAGE → h = Backend.MessageHandle) ∧
      (b0 &&& 0x7f = T.TIMPRESENCE → h = Backend.PresenceHandle) ∧
      (b0 &&& 0x7f = T.TIMSTREAM → h = Backend.StreamHandle) ∧
      (∀ err, W.reply h = Reply.fail err →
        acks (dispatchOn W T b0 (b0 &&& 0x7f) (some true)) =
          [{ Ok := false, TimType := ((b0 &&& 0x7f : Nat) : Int), Error := some err }]) ∧
      ((∀ err, W.reply h ≠ Reply.fail err) →
        acks (dispatchOn W T b0 (b0 &&& 0x7f) (some true)) = [])) ∧
    dispatchOn W T b0 (b0 &&& 0x7f) (some false) =
      [Event.taskCheck, Event.sendWs
        { Ok := false, TimType := ((b0 &&& 0x7f : Nat) : Int),
          Error := some TimError.ERR_OVERLOAD }] ∧
    calls (dispatchOn W T b0 (b0 &&& 0x7f) (some false)) = [] ∧
    acks (dispatchOn W T b0 (b0 &&& 0x7f) (some false)) =
      [{ Ok := false, TimType := ((b0 &&& 0x7f : Nat) : Int),
         Error := some TimError.ERR_OVERLOAD }] := by
  have hd : b0 &&& 0x7f = T.TIMMESSAGE ∨ b0 &&& 0x7f = T.TIMREVOKEMESSAGE ∨
      b0 &&& 0x7f = T.TIMBURNMESSAGE ∨ b0 &&& 0x7f = T.TIMPRESENCE ∨
      b0 &&& 0x7f = T.TIMSTREAM := by
    simpa [TimTypes.dataPlane] using ht
  obtain ⟨h, hg, hM, hP, hS⟩ := g_eq W T (b0 &&& 0x7f) hT ht
  obtain ⟨c1, c2, c3⟩ := calls_acks_afterCall (b0 &&& 0x7f) h (W.reply h)
  have htrue : dispatchOn W T b0 (b0 &&& 0x7f) (some true) =
      Event.taskCheck :: ([Event.txDo, Event.call h] ++ afterCall (b0 &&& 0x7f) (W.reply h)) := by
    simp only [dispatchOn, hd, if_true, hg]
  have hfalse : dispatchOn W T b0 (b0 &&& 0x7f) (some false) =
      [Event.taskCheck, Event.sendWs
        { Ok := false, TimType := ((b0 &&& 0x7f : Nat) : Int),
          Error := some TimError.ERR_OVERLOAD }] := by
    simp only [dispatchOn, hd, if_true, e, nack, toInt8_tag]
  refine ⟨rfl, ⟨h, ?_, hM, hP, hS, ?_, ?_⟩, hfalse, ?_, ?_⟩
  · rw [htrue]; simpa [calls] using c1
  · intro err herr
    rw [htrue]
    have := c2 err herr
    simpa [acks, nack, toInt8_tag] using this
  · intro hno
    rw [htrue]
    have := c3 hno
    simpa [acks] using this
  · rw [hfalse]; simp [calls]
  · rw [hfalse]; simp [acks]

theorem dataPlane_dispatch_witness :
    dispatch demoWorld demoTypes 134 (134 &&& 0x7f) =
      dispatchOn demoWorld demoTypes 134 (134 &&& 0x7f)
        (tasklimit demoWorld.taskLimit demoWorld.tx).result ∧
    (∃ h, calls (dispatchOn demoWorld demoTypes 134 (134 &&& 0x7f) (some true)) = [h] ∧
      (134 &&& 0x7f = demoTypes.TIMMESSAGE ∨ 134 &&& 0x7f = demoTypes.TIMREVOKEMESSAGE ∨
        134 &&& 0x7f = demoTypes.TIMBURNMESSAGE → h = Backend.MessageHandle) ∧
      (134 &&& 0x7f = demoTypes.TIMPRESENCE → h = Backend.PresenceHandle) ∧
      (134 &&& 0x7f = demoTypes.TIMSTREAM → h = Backend.StreamHandle) ∧
      (∀ err, demoWorld.reply h = Reply.fail err →
        acks (dispatchOn demoWorld demoTypes 134 (134 &&& 0x7f) (some true)) =
          [{ Ok := false, TimType := ((134 &&& 0x7f : Nat) : Int), Error := some err }]) ∧
      ((∀ err, demoWorld.reply h ≠ Reply.fail err) →
        acks (dispatchOn demoWorld demoTypes 134 (134 &&& 0x7f) (some true)) = [])) ∧
    dispatchOn demoWorld demoTypes 134 (134 &&& 0x7f) (some false) =
      [Event.taskCheck, Event.sendWs
        { Ok := false, TimType := ((134 &&& 0x7f : Nat) : Int),
          Error := some TimError.ERR_OVERLOAD }] ∧
    calls (dispatchOn demoWorld demoTypes 134 (134 &&& 0x7f) (some false)) = [] ∧
    acks (dispatchOn demoWorld demoTypes 134 (134 &&& 0x7f) (some false)) =
      [{ Ok := false, TimType := ((134 &&& 0x7f : Nat) : Int),
         Error := some TimError.ERR_OVERLOAD }] :=
  dataPlane_dispatch demoWorld demoTypes 134 (by decide) (by decide)

/-- C15: for every frame within the size cap on an authenticated, within-rate
connection whose 7-bit tag is none of the fourteen streaming types (so also
REGISTER, TOKEN and every value that is no type at all), `wsHandler` does not
call `tasklimit`, invokes no backend handler, and sends exactly one negative
ack, with the bad-parameters error and the tag as its type; the tag is at most
0x7f and so is its own `int8` value. -/
theorem wsHandler_unknown_tag (W : World) (T : TimTypes) (b0 : Nat) (rest : List Nat)
    (hcap : ((rest.length + 1 : Nat) : Int) ≤ W.maxData) (hWs : W.hasWs = true)
    (hz : W.overHertz = false) (ht : b0 &&& 0x7f ∉ T.streaming) :
    wsHandler W T (b0 :: rest) =
      [Event.ib (rest.length + 1), Event.hasWs, Event.hertz, Event.txDo,
        Event.sendWs { Ok := false, TimType := ((b0 &&& 0x7f : Nat) : Int),
                       Error := some TimError.ERR_PARAMS },
        Event.txDone] ∧
    Event.taskCheck ∉ wsHandler W T (b0 :: rest) ∧
    calls (wsHandler W T (b0 :: rest)) = [] ∧
    acks (wsHandler W T (b0 :: rest)) =
      [{ Ok := false, TimType := ((b0 &&& 0x7f : Nat) : Int),
         Error := some TimError.ERR_PARAMS }] ∧
    b0 &&& 0x7f ≤ 0x7f ∧ toInt8 (b0 &&& 0x7f) = ((b0 &&& 0x7f : Nat) : Int) := by
  simp only [TimTypes.streaming, List.mem_cons, List.mem_singleton, List.not_mem_nil,
    or_false, not_or] at ht
  obtain ⟨h1, h2, h3, h4, h5, h6, h7, h8, h9, h10, h11, h12, h13, h14⟩ := ht
  have hd : dispatch W T b0 (b0 &&& 0x7f) =
      [Event.txDo,
        Event.sendWs { Ok := false, TimType := ((b0 &&& 0x7f : Nat) : Int),
                       Error := some TimError.ERR_PARAMS },
        Event.txDone] := by
    unfold dispatch
    rw [if_neg (by simp only [h4, h5, h6, h7, h8, or_self, not_false_eq_true])]
    unfold f
    rw [if_neg h1, if_neg h2, if_neg h3, if_neg h9, if_neg h10, if_neg h11, if_neg h12,
      if_neg h13, if_neg h14]
    simp only [nack, toInt8_tag]
  have h : wsHandler W T (b0 :: rest) =
      [Event.ib (rest.length + 1), Event.hasWs, Event.hertz, Event.txDo,
        Event.sendWs { Ok := false, TimType := ((b0 &&& 0x7f : Nat) : Int),
                       Error := some TimError.ERR_PARAMS },
        Event.txDone] := by
    rw [wsHandler_passed W T b0 rest hcap (Or.inr (Or.inr hWs)), hd]
    simp [h1, h3, hz]
  rw [h]
  exact ⟨rfl, by simp, by simp [calls], by simp [acks], and_0x7f_le b0, toInt8_tag b0⟩

theorem wsHandler_unknown_tag_witness :
    wsHandler demoAuthWorld demoTypes (227 :: [1, 2]) =
      [Event.ib ([1, 2].length + 1), Event.hasWs, Event.hertz, Event.txDo,
        Event.sendWs { Ok := false, TimType := ((227 &&& 0x7f : Nat) : Int),
                       Error := some TimError.ERR_PARAMS },
        Event.txDone] ∧
    Event.taskCheck ∉ wsHandler demoAuthWorld demoTypes (227 :: [1, 2]) ∧
    calls (wsHandler demoAuthWorld demoTypes (227 :: [1, 2])) = [] ∧
    acks (wsHandler demoAuthWorld demoTypes (227 :: [1, 2])) =
      [{ Ok := false, TimType := ((227 &&& 0x7f : Nat) : Int),
         Error := some TimError.ERR_PARAMS }] ∧
    227 &&& 0x7f ≤ 0x7f ∧ toInt8 (227 &&& 0x7f) = ((227 &&& 0x7f : Nat) : Int) :=
  wsHandler_unknown_tag demoAuthWorld demoTypes 227 [1, 2] (by decide) rfl rfl
    (by decide)

/-! ## Node strings -/

/-- With an 8-byte seed `CheckUUID` returns for every 64-bit pattern. -/
theorem CheckUUID_total (E : Env) (hseed : E.MaskSeed.length = 8) (uuid : Nat) :
    ∃ b, CheckUUID E uuid = some b := by
  obtain ⟨sd, hsd, hlen⟩ := MaskLoop_total E.MaskSeed hseed E.MaskSeed 0 0 (by decide)
  have hpos : 0 < sd.length := by omega
  obtain ⟨q, hq, -⟩ := MaskWithSeedLoop_getD sd hpos (Int64ToBytes uuid) 0 0 hpos
  exact ⟨decide (some (E.CRC8 (q.take 7) % 256) = (Int64ToBytes uuid)[7]?), by
    simp only [CheckUUID, Mask, hsd, Option.map_some', Option.some_bind, MaskWithSeed,
      Option.getD_some, hq]⟩

theorem CheckNode_total (E : Env) (N : NodeConf) (hseed : E.MaskSeed.length = 8)
    (node : List Nat) : ∃ b, CheckNode E N node = some b := by
  unfold CheckNode
  split_ifs
  · exact CheckUUID_total E hseed _
  · exact ⟨false, rfl⟩
  · exact ⟨false, rfl⟩

/-- The loop of `CheckNodes` returns true exactly when every node passes `CheckNode`. -/
theorem CheckNodesLoop_true_iff (E : Env) (N : NodeConf) (nodes : List (List Nat)) :
    CheckNodesLoop E N nodes = some true ↔ ∀ n ∈ nodes, CheckNode E N n = some true := by
  induction nodes with
  | nil => simp [CheckNodesLoop]
  | cons node rest ih =>
    rw [CheckNodesLoop]
    rcases hn : CheckNode E N node with _ | b
    · simp [hn]
    · cases b
      · simp [hn]
      · simp [hn, ih]

theorem CheckNodesLoop_total (E : Env) (N : NodeConf) (hseed : E.MaskSeed.length = 8)
    (nodes : List (List Nat)) : ∃ b, CheckNodesLoop E N nodes = some b := by
  induction nodes with
  | nil => exact ⟨true, rfl⟩
  | cons node rest ih =>
    rw [CheckNodesLoop]
    obtain ⟨b, hb⟩ := CheckNode_total E N hseed node
    cases b
    · exact ⟨false, by simp [hb]⟩
    · obtain ⟨r, hr⟩ := ih
      exact ⟨r, by simp [hb, hr]⟩

/-- C18: with an 8-byte seed, `CheckNodes(nodes...)` returns for every list of
node strings, and returns true exactly when the list is non-empty and
`CheckNode` is true for every node of it; `CheckNodes()` is false, and a node
anywhere in the list for which `CheckNode` is false makes the result false. -/
theorem CheckNodes_iff (E : Env) (N : NodeConf) (nodes : List (List Nat))
    (hseed : E.MaskSeed.length = 8) :
    (∃ b, CheckNodes E N nodes = some b) ∧
    (CheckNodes E N nodes = some true ↔
      nodes ≠ [] ∧ ∀ n ∈ nodes, CheckNode E N n = some true) ∧
    CheckNodes E N [] = some false ∧
    (∀ n ∈ nodes, CheckNode E N n = some false → CheckNodes E N nodes = some false) := by
  have hiff : CheckNodes E N nodes = some true ↔
      nodes ≠ [] ∧ ∀ n ∈ nodes, CheckNode E N n = some true := by
    unfold CheckNodes
    by_cases h0 : nodes.length = 0
    · have : nodes = [] := List.length_eq_zero.mp h0
      simp [this]
    · have hne : nodes ≠ [] := fun h => h0 (by simp [h])
      simp only [h0, if_false, CheckNodesLoop_true_iff, hne, ne_eq, not_false_eq_true, true_and]
  have htot : ∃ b, CheckNodes E N nodes = some b := by
    unfold CheckNodes
    split_ifs
    · exact ⟨false, rfl⟩
    · exact CheckNodesLoop_total E N hseed nodes
  refine ⟨htot, hiff, rfl, ?_⟩
  intro n hn hfalse
  obtain ⟨b, hb⟩ := htot
  cases b
  · exact hb
  · have := (hiff.mp hb).2 n hn
    rw [hfalse] at this
    cases this

theorem CheckNodes_iff_witness :
    (CheckNodes demoEnv demoNodes [[15], [7, 8]] = some true ∧
      CheckNodes demoEnv demoNodes [[15], [1, 2]] = some false) ∧
    ((∃ b, CheckNodes demoEnv demoNodes [[15], [7, 8]] = some b) ∧
    (CheckNodes demoEnv demoNodes [[15], [7, 8]] = some true ↔
      [[15], [7, 8]] ≠ [] ∧ ∀ n ∈ [[15], [7, 8]], CheckNode demoEnv demoNodes n = some true) ∧
    CheckNodes demoEnv demoNodes [] = some false ∧
    (∀ n ∈ [[15], [7, 8]], CheckNode demoEnv demoNodes n = some false →
      CheckNodes demoEnv demoNodes [[15], [7, 8]] = some false)) :=
  ⟨by decide, CheckNodes_iff demoEnv demoNodes [[15], [7, 8]] (by decide)⟩

/-! ## The pair key of two identifiers -/

/-- C20: for every pair of identifiers `f`, `t`, `UnikId(f, t)` equals
`UnikId(t, f)`: the result is 16 bytes, `max(f, t)` big-endian in bytes 0..7
and `min(f, t)` in bytes 8..15. -/
theorem UnikId_comm (f t : Nat) :
    UnikId f t = UnikId t f ∧
      UnikId f t = Int64ToBytes (max f t) ++ Int64ToBytes (min f t) ∧
      (UnikId f t).length = 16 ∧
      (UnikId f t).take 8 = Int64ToBytes (max f t) ∧
      (UnikId f t).drop 8 = Int64ToBytes (min f t) := by
  have key : ∀ x y : Nat,
      UnikId x y = Int64ToBytes (max x y) ++ Int64ToBytes (min x y) := by
    intro x y
    unfold UnikId
    by_cases hxy : x < y
    · simp [hxy, max_eq_right hxy.le, min_eq_left hxy.le]
    · have hyx : y ≤ x := not_lt.mp hxy
      simp [hxy, max_eq_left hyx, min_eq_right hyx]
  refine ⟨?_, key f t, ?_, ?_, ?_⟩
  · rw [key f t, key t f, max_comm, min_comm]
  · rw [key f t]; rfl
  · rw [key f t]; rfl
  · rw [key f t]; rfl

/-! ## The reaper -/

/-- Whatever a tick closes or deletes is an entry of the map that had expired
at the time of its visit, and it does both or neither. -/
theorem reapTick_mem (stops : Bool) (clock : Nat → Int) :
    ∀ (m : List (Nat × Int)) (i : Nat) (k : Nat),
      (ReapEvent.close k ∈ reapTick stops clock m i ∨
        ReapEvent.del k ∈ reapTick stops clock m i) →
      (∃ v j, (k, v) ∈ m ∧ v + 3 < clock j) ∧
        ReapEvent.close k ∈ reapTick stops clock m i ∧
        ReapEvent.del k ∈ reapTick stops clock m i := by
  intro m
  induction m with
  | nil => intro i k h; simp [reapTick] at h
  | cons en rest ih =>
    obtain ⟨k0, v0⟩ := en
    intro i k h
    by_cases hexp : v0 + 3 < clock i
    · have e1 : reapTick stops clock ((k0, v0) :: rest) i =
          ReapEvent.close k0 :: ReapEvent.del k0 :: reapTick stops clock rest (i + 1) := by
        simp [reapTick, reapEntry, hexp]
      rw [e1] at h ⊢
      by_cases hk : k = k0
      · subst hk
        exact ⟨⟨v0, i, List.mem_cons_self _ _, hexp⟩, List.mem_cons_self _ _,
          List.mem_cons_of_mem _ (List.mem_cons_self _ _)⟩
      · have h2 : ReapEvent.close k ∈ reapTick stops clock rest (i + 1) ∨
            ReapEvent.del k ∈ reapTick stops clock rest (i + 1) := by
          simp only [List.mem_cons, ReapEvent.close.injEq, ReapEvent.del.injEq, hk,
            reduceCtorEq, false_or] at h
          exact h
        obtain ⟨⟨v, j, hv, hj⟩, hc, hd⟩ := ih (i + 1) k h2
        exact ⟨⟨v, j, List.mem_cons_of_mem _ hv, hj⟩,
          List.mem_cons_of_mem _ (List.mem_cons_of_mem _ hc),
          List.mem_cons_of_mem _ (List.mem_cons_of_mem _ hd)⟩
    · by_cases hs : stops = true
      · have e1 : reapTick stops clock ((k0, v0) :: rest) i = [] := by
          simp [reapTick, reapEntry, hexp, hs]
        rw [e1] at h
        simp at h
      · have e1 : reapTick stops clock ((k0, v0) :: rest) i =
            reapTick stops clock rest (i + 1) := by
          simp [reapTick, reapEntry, hexp, hs]
        rw [e1] at h ⊢
        obtain ⟨⟨v, j, hv, hj⟩, hc, hd⟩ := ih (i + 1) k h
        exact ⟨⟨v, j, List.mem_cons_of_mem _ hv, hj⟩, hc, hd⟩

/-- C17: on a reaper tick the per-entry step closes a connection and deletes
its entry when `t0 + 3 < now` and does nothing when `now - t0 <= 3`. A tick
closes and deletes only entries of the expiry map that had expired when
visited; an entry with `now - t0 <= 3` at every reading of the clock is neither
closed nor removed; a connection without an entry is not closed, in particular
not one whose entry `expiredMap.Del` removed after a successful AUTH. -/
theorem reapTick_only_expired (stops : Bool) (clock : Nat → Int) (m : List (Nat × Int))
    (hkeys : (m.map Prod.fst).Nodup) :
    (∀ (now : Int) (k : Nat) (v : Int),
      (v + 3 < now → reapEntry now k v = (true, [ReapEvent.close k, ReapEvent.del k])) ∧
      (now - v ≤ 3 → reapEntry now k v = (false, []))) ∧
    (∀ k, ReapEvent.close k ∈ reapTick stops clock m 0 →
      (∃ v j, (k, v) ∈ m ∧ v + 3 < clock j) ∧ ReapEvent.del k ∈ reapTick stops clock m 0) ∧
    (∀ k, ReapEvent.del k ∈ reapTick stops clock m 0 →
      ReapEvent.close k ∈ reapTick stops clock m 0) ∧
    (∀ k v, (k, v) ∈ m → (∀ j, clock j - v ≤ 3) →
      ReapEvent.close k ∉ reapTick stops clock m 0 ∧
      ReapEvent.del k ∉ reapTick stops clock m 0 ∧
      (k, v) ∈ expiredAfter m (reapTick stops clock m 0)) ∧
    (∀ k, k ∉ m.map Prod.fst → ReapEvent.close k ∉ reapTick stops clock m 0) ∧
    (∀ k, ReapEvent.close k ∉ reapTick stops clock (expiredDel k m) 0) := by
  have hfresh : ∀ k v, (k, v) ∈ m → (∀ j, clock j - v ≤ 3) →
      ¬ (ReapEvent.close k ∈ reapTick stops clock m 0 ∨
        ReapEvent.del k ∈ reapTick stops clock m 0) := by
    intro k v hv hfr h
    obtain ⟨⟨w, j, hw, hj⟩, -, -⟩ := reapTick_mem stops clock m 0 k h
    have heq : (k, w) = (k, v) := List.inj_on_of_nodup_map hkeys hw hv rfl
    have hwv : w = v := congrArg Prod.snd heq
    have := hfr j
    omega
  refine ⟨?_, ?_, ?_, ?_, ?_, ?_⟩
  · intro now k v
    constructor
    · intro h; simp [reapEntry, h]
    · intro h
      have : ¬ v + 3 < now := by omega
      simp [reapEntry, this]
  · intro k h
    obtain ⟨hex, -, hd⟩ := reapTick_mem stops clock m 0 k (Or.inl h)
    exact ⟨hex, hd⟩
  · intro k h
    exact (reapTick_mem stops clock m 0 k (Or.inr h)).2.1
  · intro k v hv hfr
    have hno := hfresh k v hv hfr
    simp only [not_or] at hno
    refine ⟨hno.1, hno.2, ?_⟩
    simp only [expiredAfter, List.mem_filter, decide_eq_true_eq]
    exact ⟨hv, hno.2⟩
  · intro k hk h
    obtain ⟨⟨v, j, hv, -⟩, -, -⟩ := reapTick_mem stops clock m 0 k (Or.inl h)
    exact hk (List.mem_map.mpr ⟨(k, v), hv, rfl⟩)
  · intro k h
    obtain ⟨⟨v, j, hv, -⟩, -, -⟩ := reapTick_mem stops clock (expiredDel k m) 0 k (Or.inl h)
    simp [expiredDel, List.mem_filter] at hv

theorem reapTick_only_expired_witness :
    (reapTick false demoClock demoExpiry 0 =
        [ReapEvent.close 1, ReapEvent.del 1, ReapEvent.close 3, ReapEvent.del 3] ∧
      reapTick true demoClock demoExpiry 0 = [ReapEvent.close 1, ReapEvent.del 1] ∧
      expiredAfter demoExpiry (reapTick false demoClock demoExpiry 0) = [(2, 97)]) ∧
    ((∀ (now : Int) (k : Nat) (v : Int),
      (v + 3 < now → reapEntry now k v = (true, [ReapEvent.close k, ReapEvent.del k])) ∧
      (now - v ≤ 3 → reapEntry now k v = (false, []))) ∧
    (∀ k, ReapEvent.close k ∈ reapTick false demoClock demoExpiry 0 →
      (∃ v j, (k, v) ∈ demoExpiry ∧ v + 3 < demoClock j) ∧
      ReapEvent.del k ∈ reapTick false demoClock demoExpiry 0) ∧
    (∀ k, ReapEvent.del k ∈ reapTick false demoClock demoExpiry 0 →
      ReapEvent.close k ∈ reapTick false demoClock demoExpiry 0) ∧
    (∀ k v, (k, v) ∈ demoExpiry → (∀ j, demoClock j - v ≤ 3) →
      ReapEvent.close k ∉ reapTick false demoClock demoExpiry 0 ∧
      ReapEvent.del k ∉ reapTick false demoClock demoExpiry 0 ∧
      (k, v) ∈ expiredAfter demoExpiry (reapTick false demoClock demoExpiry 0)) ∧
    (∀ k, k ∉ demoExpiry.map Prod.fst →
      ReapEvent.close k ∉ reapTick false demoClock demoExpiry 0) ∧
    (∀ k, ReapEvent.close k ∉ reapTick false demoClock (expiredDel k demoExpiry) 0)) :=
  ⟨by decide, reapTick_only_expired false demoClock demoExpiry (by decide)⟩

end Tim
